import Mathlib

/-!
Verification of the live streaming session manager and the audio capture
bridge of the cheating-daddy-ts repository, embedded shallowly from
src/preload/index.ts.  The file contains two parallel embeddings:

* namespace GeminiClass   — the class-based implementation (class GeminiService)
* namespace GeminiFactory — the factory implementation (createGeminiService)

JavaScript semantics relevant to the embedding:

* string truthiness: a string is truthy iff it is non-empty;
* an optional-chain access that hits undefined is falsy;
* String.prototype.includes is a case-sensitive substring test;
* String.prototype.trim removes leading and trailing whitespace;
* Array.prototype.join concatenates with the given separator;
* Buffer.slice(-n) keeps the last n bytes;
* Date.now() is modelled by an explicit parameter now : Nat.

External collaborators (the @google/genai transport, Electron windows, the
SystemAudioDump subprocess, the base64 decoder) are modelled as parameters:
whether client.live.connect resolves is a Bool, the transport handle is a
Unit, and the decoded byte length of a base64 payload is a function
String -> Nat supplied by the caller.
-/

namespace CheatingDaddy

/-- Model of JavaScript String.prototype.trim: removes leading and trailing
whitespace characters. -/
def jsTrim (s : String) : String :=
  String.mk (((s.toList.dropWhile Char.isWhitespace).reverse.dropWhile Char.isWhitespace).reverse)

/-- Model of JavaScript String.prototype.includes: case-sensitive substring
test, here expressed on the underlying character lists. -/
def jsIncludes (s pat : String) : Bool :=
  decide (pat.toList <:+: s.toList)

/-- Truthiness of a possibly-absent JavaScript string: an absent value and
the empty string are falsy, every other string is truthy. -/
def jsTruthyStr (o : Option String) : Bool :=
  match o with
  | none => false
  | some s => s != ""

/-- Rendering of a possibly-absent JavaScript string under string
concatenation: undefined prints as "undefined". -/
def jsDisplay (o : Option String) : String :=
  match o with
  | none => "undefined"
  | some s => s

/-- ConversationTurn from src/shared/types/index.ts. -/
structure ConversationTurn where
  timestamp : Nat
  transcription : String
  ai_response : String
deriving Repr, DecidableEq

/-- ReconnectionParams from src/preload/index.ts. -/
structure ReconnectionParams where
  apiKey : String
  customPrompt : String
  profile : String
  language : String
deriving Repr, DecidableEq

/-- IpcResult from src/shared/types/index.ts (the data field is not used by
the handlers verified here, except get-current-session / start-new-session
which are modelled separately). -/
structure IpcResult where
  success : Bool
  error : Option String
deriving Repr, DecidableEq

/-- Events sent to the renderer via sendToRenderer. -/
inductive RendererEvent where
  | updateStatus (status : String)
  | updateResponse (response : String)
  | sessionInitializing (b : Bool)
  | saveTurn (sessionId : Option String) (turn : ConversationTurn)
      (fullHistory : List ConversationTurn)
deriving Repr, DecidableEq

/-- One part of a model turn in a server message (part.text may be absent). -/
structure MessagePart where
  text : Option String
deriving Repr, DecidableEq

/-- Shape of an incoming transport message as read by the onmessage
callback: the optional chain message.serverContent?.inputTranscription?.text,
the optional chain message.serverContent?.modelTurn?.parts, and the two
boolean completion flags. -/
structure ServerMessage where
  inputTranscriptionText : Option String
  modelTurnParts : Option (List MessagePart)
  generationComplete : Bool
  turnComplete : Bool
deriving Repr, DecidableEq

/-- Mutable state of the service: the private fields of class GeminiService,
equally the closure variables of createGeminiService.  The transport handle
and the subprocess handle are abstracted to Unit. -/
structure ServiceState where
  currentSession : Option Unit
  currentSessionId : Option String
  currentTranscription : String
  conversationHistory : List ConversationTurn
  isInitializingSession : Bool
  systemAudioProc : Option Unit
  messageBuffer : String
  reconnectionAttempts : Nat
  lastSessionParams : Option ReconnectionParams
deriving Repr, DecidableEq

/-- Driver events: the externally triggered entry points whose interleaving
the claims quantify over.  connectCall is the initialize-gemini IPC handler
(connectOk says whether client.live.connect resolves); oncloseEvt carries an
oracle giving the outcome of each numbered reconnection attempt. -/
inductive DriverEvent where
  | connectCall (p : ReconnectionParams) (now : Nat) (connectOk : Bool)
  | onopenEvt
  | onmessageEvt (now : Nat) (msg : ServerMessage)
  | onerrorEvt (message : Option String)
  | oncloseEvt (reason : Option String) (outcomes : Nat → Bool)
  | closeSessionCall

/-- Buffer.readInt16LE: the signed 16-bit little-endian value at the given
byte offset (out-of-range bytes read as 0, which never occurs at the
call sites verified below). -/
def readInt16LE (buf : List UInt8) (off : Nat) : Int :=
  let lo := (buf.getD off 0).toNat
  let hi := (buf.getD (off + 1) 0).toNat
  let v := lo + 256 * hi
  if v < 32768 then (v : Int) else (v : Int) - 65536

/-- Buffer.writeInt16LE: the two little-endian bytes of a signed 16-bit
value. -/
def writeInt16LE (v : Int) : List UInt8 :=
  let u := (v % 65536).toNat
  [UInt8.ofNat (u % 256), UInt8.ofNat (u / 256)]


namespace GeminiClass

/-- maxReconnectionAttempts of class GeminiService. -/
def maxReconnectionAttempts : Nat := 3

/-- reconnectionDelay of class GeminiService (milliseconds; the wait has no
state effect in this embedding). -/
def reconnectionDelay : Nat := 2000

/-- initializeNewSession of class GeminiService (renamed: initNewSession).
Sets a fresh id from the clock, clears the transcription buffer and the
history. -/
def initNewSession (now : Nat) (st : ServiceState) : ServiceState :=
  { st with
    currentSessionId := some (toString now)
    currentTranscription := ""
    conversationHistory := [] }

/-- saveConversationTurn of class GeminiService: trims both fields, appends
the turn, and emits the save-conversation-turn payload with the updated
history. -/
def saveConversationTurn (now : Nat) (transcription aiResponse : String)
    (st : ServiceState) : ServiceState × List RendererEvent :=
  let st := if jsTruthyStr st.currentSessionId then st else initNewSession now st
  let conversationTurn : ConversationTurn :=
    { timestamp := now
      transcription := jsTrim transcription
      ai_response := jsTrim aiResponse }
  let st := { st with conversationHistory := st.conversationHistory ++ [conversationTurn] }
  (st, [RendererEvent.saveTurn st.currentSessionId conversationTurn st.conversationHistory])

/-- Fragment-accumulation half of the onmessage callback: the transcription
text append and the model-turn part loop, in source order. -/
def accumulate (st : ServiceState) (msg : ServerMessage) : ServiceState :=
  let st :=
    match msg.inputTranscriptionText with
    | some t => if t != "" then { st with currentTranscription := st.currentTranscription ++ t } else st
    | none => st
  match msg.modelTurnParts with
  | some parts =>
      parts.foldl
        (fun s p =>
          match p.text with
          | some t => if t != "" then { s with messageBuffer := s.messageBuffer ++ t } else s
          | none => s)
        st
  | none => st

/-- onmessage callback of class GeminiService: accumulate fragments, then on
generationComplete emit the buffered response, save a turn when both buffers
are truthy (resetting the transcription buffer only in that branch), always
reset the response buffer, and on turnComplete emit a listening status. -/
def onmessage (now : Nat) (st : ServiceState) (msg : ServerMessage) :
    ServiceState × List RendererEvent :=
  let st1 := accumulate st msg
  let flushed :=
    if msg.generationComplete then
      if st1.currentTranscription != "" && st1.messageBuffer != "" then
        let r := saveConversationTurn now st1.currentTranscription st1.messageBuffer st1
        ({ r.1 with currentTranscription := "", messageBuffer := "" },
          RendererEvent.updateResponse st1.messageBuffer :: r.2)
      else ({ st1 with messageBuffer := "" }, [RendererEvent.updateResponse st1.messageBuffer])
    else (st1, [])
  if msg.turnComplete then (flushed.1, flushed.2 ++ [RendererEvent.updateStatus "Listening..."])
  else flushed

/-- Auth-failure classification shared by onerror and onclose: the guard
e.message && (e.message.includes(...) || ...), a case-sensitive substring
match against the four fixed patterns. -/
def isApiKeyError (msg : Option String) : Bool :=
  match msg with
  | none => false
  | some m =>
      m != "" &&
        (jsIncludes m "API key not valid" || jsIncludes m "invalid API key" ||
          jsIncludes m "authentication failed" || jsIncludes m "unauthorized")

/-- onerror callback of class GeminiService. -/
def onerror (st : ServiceState) (message : Option String) :
    ServiceState × List RendererEvent :=
  if isApiKeyError message then
    ({ st with lastSessionParams := none, reconnectionAttempts := maxReconnectionAttempts },
      [RendererEvent.updateStatus "Error: Invalid API key"])
  else
    (st, [RendererEvent.updateStatus ("Error: " ++ jsDisplay message)])

/-- initializeGeminiSession of class GeminiService (renamed:
initGeminiSession).  Rejects when an initialization is already in progress
(source returns false, falsy exactly like a failed connect, hence none
here).  Otherwise it stores the reconnection parameters and resets the
attempt counter unless reconnecting, starts a fresh conversation session
unless reconnecting, and opens the transport; connectOk tells whether
client.live.connect resolves.  Tool resolution and prompt construction
touch no verified state and are omitted. -/
def initGeminiSession (now : Nat) (connectOk : Bool) (p : ReconnectionParams)
    (isReconnection : Bool) (st : ServiceState) :
    ServiceState × Option Unit × List RendererEvent :=
  if st.isInitializingSession then (st, none, [])
  else
    let st := { st with isInitializingSession := true }
    let st :=
      if isReconnection then st
      else { st with lastSessionParams := some p, reconnectionAttempts := 0 }
    let st := if isReconnection then st else initNewSession now st
    let st := { st with isInitializingSession := false }
    (st,
      if connectOk then some () else none,
      [RendererEvent.sessionInitializing true, RendererEvent.sessionInitializing false])

/-- attemptReconnection of class GeminiService.  The fuel argument is only a
termination device for the tail recursion (each round increments the attempt
counter, and the guard stops at maxReconnectionAttempts, so any fuel of at
least maxReconnectionAttempts reproduces the source behaviour); outcomes
gives the result of the numbered attempt.  Returns the new state, the
boolean result, and the emitted events. -/
def attemptReconnection (outcomes : Nat → Bool) :
    Nat → ServiceState → ServiceState × Bool × List RendererEvent
  | 0, st => (st, false, [])
  | fuel + 1, st =>
    match st.lastSessionParams with
    | none => (st, false, [RendererEvent.updateStatus "Session closed"])
    | some p =>
      if maxReconnectionAttempts ≤ st.reconnectionAttempts then
        (st, false, [RendererEvent.updateStatus "Session closed"])
      else
        let idx := st.reconnectionAttempts
        let st := { st with reconnectionAttempts := st.reconnectionAttempts + 1 }
        -- with isReconnection = true the clock argument is unused, so 0 is passed
        let r := initGeminiSession 0 (outcomes idx) p true st
        match r.2.1 with
        | some s =>
          ({ r.1 with currentSession := some s, reconnectionAttempts := 0 }, true, r.2.2)
        | none =>
          if r.1.reconnectionAttempts < maxReconnectionAttempts then
            let r2 := attemptReconnection outcomes fuel r.1
            (r2.1, r2.2.1, r.2.2 ++ r2.2.2)
          else
            (r.1, false, r.2.2 ++ [RendererEvent.updateStatus "Session closed"])

/-- onclose callback of class GeminiService: auth-failure classification of
e.reason, otherwise automatic reconnection when parameters are stored and
budget remains, otherwise a plain closed status.  The middle component is
the result of attemptReconnection (false when none was started). -/
def onclose (outcomes : Nat → Bool) (st : ServiceState) (reason : Option String) :
    ServiceState × Bool × List RendererEvent :=
  if isApiKeyError reason then
    ({ st with lastSessionParams := none, reconnectionAttempts := maxReconnectionAttempts },
      false, [RendererEvent.updateStatus "Session closed: Invalid API key"])
  else if st.lastSessionParams.isSome && decide (st.reconnectionAttempts < maxReconnectionAttempts) then
    attemptReconnection outcomes maxReconnectionAttempts st
  else
    (st, false, [RendererEvent.updateStatus "Session closed"])

/-- sendReconnectionContext of class GeminiService, as the message it sends:
none when nothing is sent (no session, empty history, or no usable
transcription), otherwise the instruction header followed by every truthy,
non-blank transcription joined by newlines. -/
def sendReconnectionContext (st : ServiceState) : Option String :=
  if st.currentSession.isNone || decide (st.conversationHistory.length = 0) then none
  else
    let transcriptions :=
      (st.conversationHistory.map (fun turn => turn.transcription)).filter
        (fun transcription => transcription != "" && decide (0 < (jsTrim transcription).length))
    if transcriptions.length = 0 then none
    else
      some ("Till now all these questions were asked in the interview, answer the last one please:\n\n"
        ++ String.intercalate "\n" transcriptions)

/-- send-audio-content IPC handler (validation and result only; the
transport send is modelled as succeeding). -/
def sendAudioContent (st : ServiceState) : IpcResult :=
  if st.currentSession.isNone then { success := false, error := some "No active Gemini session" }
  else { success := true, error := none }

/-- send-image-content IPC handler.  decodeLen models
Buffer.from(data, base64).length, the byte length of the decoded payload;
data is none when the field is absent. -/
def sendImageContent (decodeLen : String → Nat) (st : ServiceState)
    (data : Option String) : IpcResult :=
  if st.currentSession.isNone then { success := false, error := some "No active Gemini session" }
  else if !jsTruthyStr data then { success := false, error := some "Invalid image data" }
  else
    match data with
    | none => { success := false, error := some "Invalid image data" }
    | some d =>
      if decodeLen d < 1000 then { success := false, error := some "Image buffer too small" }
      else { success := true, error := none }

/-- send-text-message IPC handler. -/
def sendTextMessage (st : ServiceState) (text : String) : IpcResult :=
  if st.currentSession.isNone then { success := false, error := some "No active Gemini session" }
  else if text == "" || decide ((jsTrim text).length = 0) then
    { success := false, error := some "Invalid text message" }
  else { success := true, error := none }

/-- stopMacOSAudioCapture of class GeminiService: kill the subprocess if
present and clear the handle. -/
def stopMacOSAudioCapture (st : ServiceState) : ServiceState :=
  match st.systemAudioProc with
  | some _ => { st with systemAudioProc := none }
  | none => st

/-- close-session IPC handler: stop audio capture, clear the reconnection
parameters, close and release the transport when present, and report
success. -/
def closeSession (st : ServiceState) : ServiceState × IpcResult :=
  let st := stopMacOSAudioCapture st
  let st := { st with lastSessionParams := none }
  let st :=
    match st.currentSession with
    | some _ => { st with currentSession := none }
    | none => st
  (st, { success := true, error := none })

/-- get-current-session IPC handler payload (getCurrentSessionData). -/
def getCurrentSessionData (st : ServiceState) : Option String × List ConversationTurn :=
  (st.currentSessionId, st.conversationHistory)

/-- State reached by the constructor: default fields then
initializeNewSession. -/
def initState (now : Nat) : ServiceState :=
  initNewSession now
    { currentSession := none
      currentSessionId := none
      currentTranscription := ""
      conversationHistory := []
      isInitializingSession := false
      systemAudioProc := none
      messageBuffer := ""
      reconnectionAttempts := 0
      lastSessionParams := none }

/-- One externally driven step of the service. -/
def step (st : ServiceState) (ev : DriverEvent) : ServiceState × List RendererEvent :=
  match ev with
  | DriverEvent.connectCall p now ok =>
    let r := initGeminiSession now ok p false st
    match r.2.1 with
    | some s => ({ r.1 with currentSession := some s }, r.2.2)
    | none => (r.1, r.2.2)
  | DriverEvent.onopenEvt => (st, [RendererEvent.updateStatus "Live session connected"])
  | DriverEvent.onmessageEvt now msg => onmessage now st msg
  | DriverEvent.onerrorEvt m => onerror st m
  | DriverEvent.oncloseEvt reason outcomes =>
    let r := onclose outcomes st reason
    (r.1, r.2.2)
  | DriverEvent.closeSessionCall =>
    let r := closeSession st
    (r.1, [])

/-- Run of a driver-event sequence, accumulating renderer events. -/
def run (st : ServiceState) (evs : List DriverEvent) : ServiceState × List RendererEvent :=
  evs.foldl (fun acc ev => let r := step acc.1 ev; (r.1, acc.2 ++ r.2)) (st, [])

/-- SAMPLE_RATE constant of startMacOSAudioCapture. -/
def SAMPLE_RATE : Nat := 24000

/-- BYTES_PER_SAMPLE constant of startMacOSAudioCapture. -/
def BYTES_PER_SAMPLE : Nat := 2

/-- CHANNELS constant of startMacOSAudioCapture. -/
def CHANNELS : Nat := 2

/-- CHUNK_SIZE = SAMPLE_RATE * BYTES_PER_SAMPLE * CHANNELS * CHUNK_DURATION
with CHUNK_DURATION = 0.1; the product is the exact integer 9600, written
here as a division by ten. -/
def CHUNK_SIZE : Nat := SAMPLE_RATE * BYTES_PER_SAMPLE * CHANNELS / 10

/-- maxBufferSize = SAMPLE_RATE * BYTES_PER_SAMPLE * 1, one second of
residual bytes. -/
def maxBufferSize : Nat := SAMPLE_RATE * BYTES_PER_SAMPLE * 1

/-- convertStereoToMono of class GeminiService: for each of
stereoBuffer.length / 4 sample pairs, read the left 16-bit sample at offset
i * 4 and write it at offset i * 2 of the mono buffer. -/
def convertStereoToMono (stereoBuffer : List UInt8) : List UInt8 :=
  let samples := stereoBuffer.length / 4
  (List.range samples).flatMap (fun i => writeInt16LE (readInt16LE stereoBuffer (i * 4)))

/-- While loop of the stdout data handler: as long as the buffer holds at
least CHUNK_SIZE bytes, slice one stereo chunk off the front, downmix it,
and forward it (the forwarded mono frames are collected in order in the
second component; sendAudioToGemini itself is fire-and-forget and touches
no verified state). -/
def frameLoop (audioBuffer : List UInt8) : List UInt8 × List (List UInt8) :=
  if _h : CHUNK_SIZE ≤ audioBuffer.length then
    let chunk := audioBuffer.take CHUNK_SIZE
    let rest := audioBuffer.drop CHUNK_SIZE
    let r := frameLoop rest
    (r.1, convertStereoToMono chunk :: r.2)
  else (audioBuffer, [])
termination_by audioBuffer.length
decreasing_by
  have hpos : 0 < CHUNK_SIZE := by decide
  simp only [List.length_drop]
  omega

/-- Full stdout data handler: concatenate the incoming bytes, run the
framing loop, then apply the residual cap audioBuffer.slice(-maxBufferSize)
when the residual exceeds maxBufferSize.  Returns the new residual buffer
and the mono frames forwarded by this event, in order. -/
def onData (audioBuffer data : List UInt8) : List UInt8 × List (List UInt8) :=
  let r := frameLoop (audioBuffer ++ data)
  let residual :=
    if maxBufferSize < r.1.length then r.1.drop (r.1.length - maxBufferSize) else r.1
  (residual, r.2)

/-- Capture run over a sequence of stdout data events starting from the
empty buffer (audioBuffer = Buffer.alloc(0)), collecting all forwarded mono
frames in order. -/
def runCapture (events : List (List UInt8)) : List UInt8 × List (List UInt8) :=
  events.foldl (fun acc d => let r := onData acc.1 d; (r.1, acc.2 ++ r.2)) ([], [])

end GeminiClass

/-!  The factory implementation createGeminiService: closure variables in
place of private fields, otherwise the same definitions, embedded
independently from its own source text (lines 858-1515).  -/

namespace GeminiFactory

/-- maxReconnectionAttempts of createGeminiService. -/
def maxReconnectionAttempts : Nat := 3

/-- reconnectionDelay of createGeminiService (milliseconds; the wait has no
state effect in this embedding). -/
def reconnectionDelay : Nat := 2000

/-- initializeNewSession of createGeminiService (renamed: initNewSession).
Sets a fresh id from the clock, clears the transcription buffer and the
history. -/
def initNewSession (now : Nat) (st : ServiceState) : ServiceState :=
  { st with
    currentSessionId := some (toString now)
    currentTranscription := ""
    conversationHistory := [] }

/-- saveConversationTurn of createGeminiService: trims both fields, appends
the turn, and emits the save-conversation-turn payload with the updated
history. -/
def saveConversationTurn (now : Nat) (transcription aiResponse : String)
    (st : ServiceState) : ServiceState × List RendererEvent :=
  let st := if jsTruthyStr st.currentSessionId then st else initNewSession now st
  let conversationTurn : ConversationTurn :=
    { timestamp := now
      transcription := jsTrim transcription
      ai_response := jsTrim aiResponse }
  let st := { st with conversationHistory := st.conversationHistory ++ [conversationTurn] }
  (st, [RendererEvent.saveTurn st.currentSessionId conversationTurn st.conversationHistory])

/-- Fragment-accumulation half of the onmessage callback: the transcription
text append and the model-turn part loop, in source order. -/
def accumulate (st : ServiceState) (msg : ServerMessage) : ServiceState :=
  let st :=
    match msg.inputTranscriptionText with
    | some t => if t != "" then { st with currentTranscription := st.currentTranscription ++ t } else st
    | none => st
  match msg.modelTurnParts with
  | some parts =>
      parts.foldl
        (fun s p =>
          match p.text with
          | some t => if t != "" then { s with messageBuffer := s.messageBuffer ++ t } else s
          | none => s)
        st
  | none => st

/-- onmessage callback of createGeminiService: accumulate fragments, then on
generationComplete emit the buffered response, save a turn when both buffers
are truthy (resetting the transcription buffer only in that branch), always
reset the response buffer, and on turnComplete emit a listening status. -/
def onmessage (now : Nat) (st : ServiceState) (msg : ServerMessage) :
    ServiceState × List RendererEvent :=
  let st1 := accumulate st msg
  let flushed :=
    if msg.generationComplete then
      if st1.currentTranscription != "" && st1.messageBuffer != "" then
        let r := saveConversationTurn now st1.currentTranscription st1.messageBuffer st1
        ({ r.1 with currentTranscription := "", messageBuffer := "" },
          RendererEvent.updateResponse st1.messageBuffer :: r.2)
      else ({ st1 with messageBuffer := "" }, [RendererEvent.updateResponse st1.messageBuffer])
    else (st1, [])
  if msg.turnComplete then (flushed.1, flushed.2 ++ [RendererEvent.updateStatus "Listening..."])
  else flushed

/-- Auth-failure classification shared by onerror and onclose: the guard
e.message && (e.message.includes(...) || ...), a case-sensitive substring
match against the four fixed patterns. -/
def isApiKeyError (msg : Option String) : Bool :=
  match msg with
  | none => false
  | some m =>
      m != "" &&
        (jsIncludes m "API key not valid" || jsIncludes m "invalid API key" ||
          jsIncludes m "authentication failed" || jsIncludes m "unauthorized")

/-- onerror callback of createGeminiService. -/
def onerror (st : ServiceState) (message : Option String) :
    ServiceState × List RendererEvent :=
  if isApiKeyError message then
    ({ st with lastSessionParams := none, reconnectionAttempts := maxReconnectionAttempts },
      [RendererEvent.updateStatus "Error: Invalid API key"])
  else
    (st, [RendererEvent.updateStatus ("Error: " ++ jsDisplay message)])

/-- initializeGeminiSession of createGeminiService (renamed:
initGeminiSession).  Rejects when an initialization is already in progress
(source returns false, falsy exactly like a failed connect, hence none
here).  Otherwise it stores the reconnection parameters and resets the
attempt counter unless reconnecting, starts a fresh conversation session
unless reconnecting, and opens the transport; connectOk tells whether
client.live.connect resolves.  Tool resolution and prompt construction
touch no verified state and are omitted. -/
def initGeminiSession (now : Nat) (connectOk : Bool) (p : ReconnectionParams)
    (isReconnection : Bool) (st : ServiceState) :
    ServiceState × Option Unit × List RendererEvent :=
  if st.isInitializingSession then (st, none, [])
  else
    let st := { st with isInitializingSession := true }
    let st :=
      if isReconnection then st
      else { st with lastSessionParams := some p, reconnectionAttempts := 0 }
    let st := if isReconnection then st else initNewSession now st
    let st := { st with isInitializingSession := false }
    (st,
      if connectOk then some () else none,
      [RendererEvent.sessionInitializing true, RendererEvent.sessionInitializing false])

/-- attemptReconnection of createGeminiService.  The fuel argument is only a
termination device for the tail recursion (each round increments the attempt
counter, and the guard stops at maxReconnectionAttempts, so any fuel of at
least maxReconnectionAttempts reproduces the source behaviour); outcomes
gives the result of the numbered attempt.  Returns the new state, the
boolean result, and the emitted events. -/
def attemptReconnection (outcomes : Nat → Bool) :
    Nat → ServiceState → ServiceState × Bool × List RendererEvent
  | 0, st => (st, false, [])
  | fuel + 1, st =>
    match st.lastSessionParams with
    | none => (st, false, [RendererEvent.updateStatus "Session closed"])
    | some p =>
      if maxReconnectionAttempts ≤ st.reconnectionAttempts then
        (st, false, [RendererEvent.updateStatus "Session closed"])
      else
        let idx := st.reconnectionAttempts
        let st := { st with reconnectionAttempts := st.reconnectionAttempts + 1 }
        -- with isReconnection = true the clock argument is unused, so 0 is passed
        let r := initGeminiSession 0 (outcomes idx) p true st
        match r.2.1 with
        | some s =>
          ({ r.1 with currentSession := some s, reconnectionAttempts := 0 }, true, r.2.2)
        | none =>
          if r.1.reconnectionAttempts < maxReconnectionAttempts then
            let r2 := attemptReconnection outcomes fuel r.1
            (r2.1, r2.2.1, r.2.2 ++ r2.2.2)
          else
            (r.1, false, r.2.2 ++ [RendererEvent.updateStatus "Session closed"])

/-- onclose callback of createGeminiService: auth-failure classification of
e.reason, otherwise automatic reconnection when parameters are stored and
budget remains, otherwise a plain closed status.  The middle component is
the result of attemptReconnection (false when none was started). -/
def onclose (outcomes : Nat → Bool) (st : ServiceState) (reason : Option String) :
    ServiceState × Bool × List RendererEvent :=
  if isApiKeyError reason then
    ({ st with lastSessionParams := none, reconnectionAttempts := maxReconnectionAttempts },
      false, [RendererEvent.updateStatus "Session closed: Invalid API key"])
  else if st.lastSessionParams.isSome && decide (st.reconnectionAttempts < maxReconnectionAttempts) then
    attemptReconnection outcomes maxReconnectionAttempts st
  else
    (st, false, [RendererEvent.updateStatus "Session closed"])

/-- sendReconnectionContext of createGeminiService, as the message it sends:
none when nothing is sent (no session, empty history, or no usable
transcription), otherwise the instruction header followed by every truthy,
non-blank transcription joined by newlines. -/
def sendReconnectionContext (st : ServiceState) : Option String :=
  if st.currentSession.isNone || decide (st.conversationHistory.length = 0) then none
  else
    let transcriptions :=
      (st.conversationHistory.map (fun turn => turn.transcription)).filter
        (fun transcription => transcription != "" && decide (0 < (jsTrim transcription).length))
    if transcriptions.length = 0 then none
    else
      some ("Till now all these questions were asked in the interview, answer the last one please:\n\n"
        ++ String.intercalate "\n" transcriptions)

/-- send-audio-content IPC handler (validation and result only; the
transport send is modelled as succeeding). -/
def sendAudioContent (st : ServiceState) : IpcResult :=
  if st.currentSession.isNone then { success := false, error := some "No active Gemini session" }
  else { success := true, error := none }

/-- send-image-content IPC handler.  decodeLen models
Buffer.from(data, base64).length, the byte length of the decoded payload;
data is none when the field is absent. -/
def sendImageContent (decodeLen : String → Nat) (st : ServiceState)
    (data : Option String) : IpcResult :=
  if st.currentSession.isNone then { success := false, error := some "No active Gemini session" }
  else if !jsTruthyStr data then { success := false, error := some "Invalid image data" }
  else
    match data with
    | none => { success := false, error := some "Invalid image data" }
    | some d =>
      if decodeLen d < 1000 then { success := false, error := some "Image buffer too small" }
      else { success := true, error := none }

/-- send-text-message IPC handler. -/
def sendTextMessage (st : ServiceState) (text : String) : IpcResult :=
  if st.currentSession.isNone then { success := false, error := some "No active Gemini session" }
  else if text == "" || decide ((jsTrim text).length = 0) then
    { success := false, error := some "Invalid text message" }
  else { success := true, error := none }

/-- stopMacOSAudioCapture of createGeminiService: kill the subprocess if
present and clear the handle. -/
def stopMacOSAudioCapture (st : ServiceState) : ServiceState :=
  match st.systemAudioProc with
  | some _ => { st with systemAudioProc := none }
  | none => st

/-- close-session IPC handler: stop audio capture, clear the reconnection
parameters, close and release the transport when present, and report
success. -/
def closeSession (st : ServiceState) : ServiceState × IpcResult :=
  let st := stopMacOSAudioCapture st
  let st := { st with lastSessionParams := none }
  let st :=
    match st.currentSession with
    | some _ => { st with currentSession := none }
    | none => st
  (st, { success := true, error := none })

/-- get-current-session IPC handler payload (getCurrentSessionData). -/
def getCurrentSessionData (st : ServiceState) : Option String × List ConversationTurn :=
  (st.currentSessionId, st.conversationHistory)

/-- State reached by the constructor: default fields then
initializeNewSession. -/
def initState (now : Nat) : ServiceState :=
  initNewSession now
    { currentSession := none
      currentSessionId := none
      currentTranscription := ""
      conversationHistory := []
      isInitializingSession := false
      systemAudioProc := none
      messageBuffer := ""
      reconnectionAttempts := 0
      lastSessionParams := none }

/-- One externally driven step of the service. -/
def step (st : ServiceState) (ev : DriverEvent) : ServiceState × List RendererEvent :=
  match ev with
  | DriverEvent.connectCall p now ok =>
    let r := initGeminiSession now ok p false st
    match r.2.1 with
    | some s => ({ r.1 with currentSession := some s }, r.2.2)
    | none => (r.1, r.2.2)
  | DriverEvent.onopenEvt => (st, [RendererEvent.updateStatus "Live session connected"])
  | DriverEvent.onmessageEvt now msg => onmessage now st msg
  | DriverEvent.onerrorEvt m => onerror st m
  | DriverEvent.oncloseEvt reason outcomes =>
    let r := onclose outcomes st reason
    (r.1, r.2.2)
  | DriverEvent.closeSessionCall =>
    let r := closeSession st
    (r.1, [])

/-- Run of a driver-event sequence, accumulating renderer events. -/
def run (st : ServiceState) (evs : List DriverEvent) : ServiceState × List RendererEvent :=
  evs.foldl (fun acc ev => let r := step acc.1 ev; (r.1, acc.2 ++ r.2)) (st, [])

/-- SAMPLE_RATE constant of startMacOSAudioCapture. -/
def SAMPLE_RATE : Nat := 24000

/-- BYTES_PER_SAMPLE constant of startMacOSAudioCapture. -/
def BYTES_PER_SAMPLE : Nat := 2

/-- CHANNELS constant of startMacOSAudioCapture. -/
def CHANNELS : Nat := 2

/-- CHUNK_SIZE = SAMPLE_RATE * BYTES_PER_SAMPLE * CHANNELS * CHUNK_DURATION
with CHUNK_DURATION = 0.1; the product is the exact integer 9600, written
here as a division by ten. -/
def CHUNK_SIZE : Nat := SAMPLE_RATE * BYTES_PER_SAMPLE * CHANNELS / 10

/-- maxBufferSize = SAMPLE_RATE * BYTES_PER_SAMPLE * 1, one second of
residual bytes. -/
def maxBufferSize : Nat := SAMPLE_RATE * BYTES_PER_SAMPLE * 1

/-- convertStereoToMono of createGeminiService: for each of
stereoBuffer.length / 4 sample pairs, read the left 16-bit sample at offset
i * 4 and write it at offset i * 2 of the mono buffer. -/
def convertStereoToMono (stereoBuffer : List UInt8) : List UInt8 :=
  let samples := stereoBuffer.length / 4
  (List.range samples).flatMap (fun i => writeInt16LE (readInt16LE stereoBuffer (i * 4)))

/-- While loop of the stdout data handler: as long as the buffer holds at
least CHUNK_SIZE bytes, slice one stereo chunk off the front, downmix it,
and forward it (the forwarded mono frames are collected in order in the
second component; sendAudioToGemini itself is fire-and-forget and touches
no verified state). -/
def frameLoop (audioBuffer : List UInt8) : List UInt8 × List (List UInt8) :=
  if _h : CHUNK_SIZE ≤ audioBuffer.length then
    let chunk := audioBuffer.take CHUNK_SIZE
    let rest := audioBuffer.drop CHUNK_SIZE
    let r := frameLoop rest
    (r.1, convertStereoToMono chunk :: r.2)
  else (audioBuffer, [])
termination_by audioBuffer.length
decreasing_by
  have hpos : 0 < CHUNK_SIZE := by decide
  simp only [List.length_drop]
  omega

/-- Full stdout data handler: concatenate the incoming bytes, run the
framing loop, then apply the residual cap audioBuffer.slice(-maxBufferSize)
when the residual exceeds maxBufferSize.  Returns the new residual buffer
and the mono frames forwarded by this event, in order. -/
def onData (audioBuffer data : List UInt8) : List UInt8 × List (List UInt8) :=
  let r := frameLoop (audioBuffer ++ data)
  let residual :=
    if maxBufferSize < r.1.length then r.1.drop (r.1.length - maxBufferSize) else r.1
  (residual, r.2)

/-- Capture run over a sequence of stdout data events starting from the
empty buffer (audioBuffer = Buffer.alloc(0)), collecting all forwarded mono
frames in order. -/
def runCapture (events : List (List UInt8)) : List UInt8 × List (List UInt8) :=
  events.foldl (fun acc d => let r := onData acc.1 d; (r.1, acc.2 ++ r.2)) ([], [])

end GeminiFactory

/-! Theorems about the class-based embedding. -/

namespace GeminiClass

theorem CHUNK_SIZE_eq : CHUNK_SIZE = 9600 := rfl

theorem maxBufferSize_eq : maxBufferSize = 48000 := rfl

theorem CHUNK_SIZE_pos : 0 < CHUNK_SIZE := by decide

/-- Fragment accumulation only ever touches the two pending buffers. -/
theorem accumulate_frame (st : ServiceState) (msg : ServerMessage) :
    (accumulate st msg).conversationHistory = st.conversationHistory ∧
    (accumulate st msg).currentSessionId = st.currentSessionId := by
  have key : ∀ (parts : List MessagePart) (s : ServiceState),
      (parts.foldl
        (fun s p =>
          match p.text with
          | some t => if t != "" then { s with messageBuffer := s.messageBuffer ++ t } else s
          | none => s)
        s).conversationHistory = s.conversationHistory ∧
      (parts.foldl
        (fun s p =>
          match p.text with
          | some t => if t != "" then { s with messageBuffer := s.messageBuffer ++ t } else s
          | none => s)
        s).currentSessionId = s.currentSessionId := by
    intro parts
    induction parts with
    | nil => intro s; exact ⟨rfl, rfl⟩
    | cons p ps ih =>
      intro s
      simp only [List.foldl_cons]
      rcases hp : p.text with _ | t
      · exact ih s
      · by_cases ht : t != ""
        · simp only [ht, if_true]; exact ih _
        · simp only [ht, if_false]; exact ih s
  unfold accumulate
  rcases msg.inputTranscriptionText with _ | t <;>
    rcases msg.modelTurnParts with _ | parts
  · exact ⟨rfl, rfl⟩
  · exact key parts st
  · by_cases ht : t != "" <;> simp [ht]
  · by_cases ht : t != "" <;> simp only [ht, if_true, if_false] <;> exact key parts _

/-- Closed form of the onmessage callback on a generation-complete message
when a session id is present: the flush appends a trimmed turn and clears
the transcription buffer exactly when both accumulated buffers are truthy,
and clears the response buffer in every case. -/
theorem onmessage_generationComplete (now : Nat) (st : ServiceState) (msg : ServerMessage)
    (hsid : jsTruthyStr st.currentSessionId = true)
    (hgen : msg.generationComplete = true) :
    onmessage now st msg =
      (if (accumulate st msg).currentTranscription != "" && (accumulate st msg).messageBuffer != "" then
        ({ accumulate st msg with
            currentTranscription := ""
            messageBuffer := ""
            conversationHistory := (accumulate st msg).conversationHistory ++
              [{ timestamp := now
                 transcription := jsTrim (accumulate st msg).currentTranscription
                 ai_response := jsTrim (accumulate st msg).messageBuffer }] },
          [RendererEvent.updateResponse (accumulate st msg).messageBuffer,
            RendererEvent.saveTurn (accumulate st msg).currentSessionId
              { timestamp := now
                transcription := jsTrim (accumulate st msg).currentTranscription
                ai_response := jsTrim (accumulate st msg).messageBuffer }
              ((accumulate st msg).conversationHistory ++
                [{ timestamp := now
                   transcription := jsTrim (accumulate st msg).currentTranscription
                   ai_response := jsTrim (accumulate st msg).messageBuffer }])] ++
            (if msg.turnComplete then [RendererEvent.updateStatus "Listening..."] else []))
      else
        ({ accumulate st msg with messageBuffer := "" },
          [RendererEvent.updateResponse (accumulate st msg).messageBuffer] ++
            (if msg.turnComplete then [RendererEvent.updateStatus "Listening..."] else []))) := by
  have hsid2 : jsTruthyStr (accumulate st msg).currentSessionId = true := by
    rw [(accumulate_frame st msg).2]; exact hsid
  by_cases hcb : ((accumulate st msg).currentTranscription != "" &&
      (accumulate st msg).messageBuffer != "") = true
  · simp only [onmessage, saveConversationTurn, hgen, hsid2, hcb, if_true]
    cases htc : msg.turnComplete <;> simp
  · have hcb2 : ((accumulate st msg).currentTranscription != "" &&
        (accumulate st msg).messageBuffer != "") = false := by
      revert hcb; cases ((accumulate st msg).currentTranscription != "" &&
        (accumulate st msg).messageBuffer != "") <;> simp
    simp only [onmessage, hgen, hcb2, if_true, Bool.false_eq_true, if_false]
    cases htc : msg.turnComplete <;> simp

end GeminiClass

open GeminiClass in
/-- Claim C1 (amended).  For every sequence of onMessage fragments followed
by a generation-complete signal, a Turn is appended iff both accumulated
buffers are non-empty at flush time; immediately after the flush the
response buffer is always reset to the empty string, but the transcription
buffer is reset only when a Turn was appended, and otherwise keeps its
accumulated value. -/
theorem claim_C1_amended (now : Nat) (st : ServiceState) (msg : ServerMessage)
    (hsid : jsTruthyStr st.currentSessionId = true)
    (hgen : msg.generationComplete = true) :
    (onmessage now st msg).1.messageBuffer = "" ∧
    ((accumulate st msg).currentTranscription ≠ "" ∧ (accumulate st msg).messageBuffer ≠ "" →
      (onmessage now st msg).1.conversationHistory =
        st.conversationHistory ++
          [{ timestamp := now
             transcription := jsTrim (accumulate st msg).currentTranscription
             ai_response := jsTrim (accumulate st msg).messageBuffer }] ∧
      (onmessage now st msg).1.currentTranscription = "") ∧
    (¬((accumulate st msg).currentTranscription ≠ "" ∧ (accumulate st msg).messageBuffer ≠ "") →
      (onmessage now st msg).1.conversationHistory = st.conversationHistory ∧
      (onmessage now st msg).1.currentTranscription = (accumulate st msg).currentTranscription) := by
  have hfr := accumulate_frame st msg
  rw [onmessage_generationComplete now st msg hsid hgen]
  by_cases hc : (accumulate st msg).currentTranscription ≠ "" ∧ (accumulate st msg).messageBuffer ≠ ""
  · have hcb : ((accumulate st msg).currentTranscription != "" &&
        (accumulate st msg).messageBuffer != "") = true := by
      simp only [Bool.and_eq_true, bne_iff_ne, ne_eq]
      exact ⟨hc.1, hc.2⟩
    simp only [hcb, if_true]
    refine ⟨trivial, fun _ => ⟨by rw [hfr.1], trivial⟩, fun hn => absurd hc hn⟩
  · have hcb : ((accumulate st msg).currentTranscription != "" &&
        (accumulate st msg).messageBuffer != "") = false := by
      rcases not_and_or.mp hc with h | h <;>
        simp only [not_not] at h <;> simp [h]
    simp only [hcb, Bool.false_eq_true, if_false]
    exact ⟨trivial, fun hp => absurd hp hc, fun _ => ⟨hfr.1, trivial⟩⟩

open GeminiClass in
/-- Claim C1 witness: a concrete flush where both buffers are non-empty. -/
theorem claim_C1_witness :
    jsTruthyStr ({ initState 0 with currentTranscription := "q", messageBuffer := "a" } :
        ServiceState).currentSessionId = true ∧
    ({ inputTranscriptionText := none, modelTurnParts := none,
       generationComplete := true, turnComplete := false } : ServerMessage).generationComplete = true ∧
    (onmessage 5 { initState 0 with currentTranscription := "q", messageBuffer := "a" }
        { inputTranscriptionText := none, modelTurnParts := none,
          generationComplete := true, turnComplete := false }).1.messageBuffer = "" :=
  ⟨by decide, rfl,
    (claim_C1_amended 5
      { initState 0 with currentTranscription := "q", messageBuffer := "a" }
      { inputTranscriptionText := none, modelTurnParts := none,
        generationComplete := true, turnComplete := false }
      (by decide) rfl).1⟩

open GeminiClass in
/-- Claim C1 counterexample.  The claim states that immediately after the
flush BOTH buffers are reset to the empty string regardless of whether a
Turn was appended.  Starting from a fresh session, a transcription fragment
"hello" followed by a generation-complete message with an empty response
buffer flushes without appending a Turn, and the transcription buffer is
NOT reset: it still holds "hello". -/
theorem claim_C1_counterexample :
    (onmessage 1
        (onmessage 0 (initState 0)
          { inputTranscriptionText := some "hello", modelTurnParts := none,
            generationComplete := false, turnComplete := false }).1
        { inputTranscriptionText := none, modelTurnParts := none,
          generationComplete := true, turnComplete := false }).1.currentTranscription = "hello" ∧
    (onmessage 1
        (onmessage 0 (initState 0)
          { inputTranscriptionText := some "hello", modelTurnParts := none,
            generationComplete := false, turnComplete := false }).1
        { inputTranscriptionText := none, modelTurnParts := none,
          generationComplete := true, turnComplete := false }).1.conversationHistory = [] := by
  decide

open GeminiClass in
/-- Claim C10.  If at the generation-complete signal the accumulated
transcription is non-empty as a string but consists only of whitespace,
and the response buffer is non-empty, a Turn is still appended, and the
stored transcription field of that Turn (and of the emitted turn-saved
payload) is the empty string. -/
theorem claim_C10_whitespace_turn (now : Nat) (st : ServiceState) (msg : ServerMessage)
    (hsid : jsTruthyStr st.currentSessionId = true)
    (hgen : msg.generationComplete = true)
    (ht : (accumulate st msg).currentTranscription ≠ "")
    (htw : jsTrim (accumulate st msg).currentTranscription = "")
    (hr : (accumulate st msg).messageBuffer ≠ "") :
    (onmessage now st msg).1.conversationHistory =
      st.conversationHistory ++
        [{ timestamp := now
           transcription := ""
           ai_response := jsTrim (accumulate st msg).messageBuffer }] ∧
    (onmessage now st msg).2 =
      [RendererEvent.updateResponse (accumulate st msg).messageBuffer,
        RendererEvent.saveTurn st.currentSessionId
          { timestamp := now
            transcription := ""
            ai_response := jsTrim (accumulate st msg).messageBuffer }
          (st.conversationHistory ++
            [{ timestamp := now
               transcription := ""
               ai_response := jsTrim (accumulate st msg).messageBuffer }])] ++
        (if msg.turnComplete then [RendererEvent.updateStatus "Listening..."] else []) := by
  have hfr := accumulate_frame st msg
  have hcb : ((accumulate st msg).currentTranscription != "" &&
      (accumulate st msg).messageBuffer != "") = true := by
    simp only [Bool.and_eq_true, bne_iff_ne, ne_eq]
    exact ⟨ht, hr⟩
  rw [onmessage_generationComplete now st msg hsid hgen]
  simp only [hcb, if_true, htw, hfr.1, hfr.2]
  exact ⟨trivial, trivial⟩

open GeminiClass in
/-- Claim C10 witness: a single-space transcription with response "ok"
appends a Turn whose transcription field is empty. -/
theorem claim_C10_witness :
    ((accumulate { initState 0 with currentTranscription := " ", messageBuffer := "ok" }
        { inputTranscriptionText := none, modelTurnParts := none,
          generationComplete := true, turnComplete := false }).currentTranscription ≠ "") ∧
    jsTrim (accumulate { initState 0 with currentTranscription := " ", messageBuffer := "ok" }
        { inputTranscriptionText := none, modelTurnParts := none,
          generationComplete := true, turnComplete := false }).currentTranscription = "" ∧
    (onmessage 7 { initState 0 with currentTranscription := " ", messageBuffer := "ok" }
        { inputTranscriptionText := none, modelTurnParts := none,
          generationComplete := true, turnComplete := false }).1.conversationHistory =
      [{ timestamp := 7, transcription := "", ai_response := "ok" }] :=
  ⟨by decide, by decide,
    by
      have h := claim_C10_whitespace_turn 7
        { initState 0 with currentTranscription := " ", messageBuffer := "ok" }
        { inputTranscriptionText := none, modelTurnParts := none,
          generationComplete := true, turnComplete := false }
        (by decide) rfl (by decide) (by decide) (by decide)
      rw [h.1]
      decide⟩

namespace GeminiClass

/-- With no stored reconnection parameters, attemptReconnection performs no
attempt: the state is unchanged and the result is false. -/
theorem attemptReconnection_no_params (outcomes : Nat → Bool) (fuel : Nat)
    (st : ServiceState) (h : st.lastSessionParams = none) :
    (attemptReconnection outcomes fuel st).1 = st ∧
    (attemptReconnection outcomes fuel st).2.1 = false := by
  cases fuel with
  | zero => exact ⟨rfl, rfl⟩
  | succ n =>
    simp only [attemptReconnection, h]
    exact ⟨trivial, trivial⟩

end GeminiClass

open GeminiClass in
/-- Claim C2 (amended).  The auth-failure check is a case-SENSITIVE
substring match against the fixed list "API key not valid",
"invalid API key", "authentication failed", "unauthorized" (not the
case-insensitive lowercase list of the claim).  For every onError message or
onClose reason matching it, the controller clears the reconnection
parameters, forces the attempt counter to maxReconnectionAttempts, emits
the corresponding Invalid-API-key status, starts no reconnection from
onclose, and any subsequent attemptReconnection performs zero attempts. -/
theorem claim_C2_amended (st : ServiceState) (m : Option String)
    (hm : isApiKeyError m = true) :
    ((onerror st m).1 =
        { st with lastSessionParams := none,
                  reconnectionAttempts := maxReconnectionAttempts } ∧
      (onerror st m).2 = [RendererEvent.updateStatus "Error: Invalid API key"]) ∧
    (∀ outcomes : Nat → Bool,
      (onclose outcomes st m).1 =
        { st with lastSessionParams := none,
                  reconnectionAttempts := maxReconnectionAttempts } ∧
      (onclose outcomes st m).2.1 = false ∧
      (onclose outcomes st m).2.2 =
        [RendererEvent.updateStatus "Session closed: Invalid API key"]) ∧
    (∀ (outcomes : Nat → Bool) (fuel : Nat),
      (attemptReconnection outcomes fuel (onerror st m).1).1 = (onerror st m).1 ∧
      (attemptReconnection outcomes fuel (onerror st m).1).2.1 = false) := by
  have h1 : (onerror st m).1 =
      { st with lastSessionParams := none,
                reconnectionAttempts := maxReconnectionAttempts } := by
    simp only [onerror, hm, if_true]
  refine ⟨⟨h1, by simp only [onerror, hm, if_true]⟩, ?_, ?_⟩
  · intro outcomes
    refine ⟨?_, ?_, ?_⟩ <;> simp only [onclose, hm, if_true]
  · intro outcomes fuel
    exact attemptReconnection_no_params outcomes fuel _ (by rw [h1])

open GeminiClass in
/-- Claim C2 witness: the exact-case pattern "unauthorized" is classified as
an auth failure and clears the stored reconnection parameters. -/
theorem claim_C2_witness :
    isApiKeyError (some "unauthorized") = true ∧
    (onerror
        { initState 0 with
          lastSessionParams := some ⟨"k", "", "interview", "en-US"⟩ }
        (some "unauthorized")).1.lastSessionParams = none :=
  ⟨by decide, by
    have h := (claim_C2_amended
      { initState 0 with lastSessionParams := some ⟨"k", "", "interview", "en-US"⟩ }
      (some "unauthorized") (by decide)).1.1
    rw [h]⟩

open GeminiClass in
/-- Claim C2 counterexample.  The claim states the match is case-insensitive
against the lowercase list, so the message "api key not valid" should be
classified as a permanent auth failure clearing the ReconnectionContext and
emitting the Invalid-API-key status.  The code uses the case-sensitive
String.prototype.includes against "API key not valid", so this lowercase
message is NOT classified: the parameters survive, the attempt counter is
untouched, and the generic error status is emitted instead. -/
theorem claim_C2_counterexample :
    isApiKeyError (some "api key not valid") = false ∧
    (onerror
        { initState 0 with
          lastSessionParams := some ⟨"k", "", "interview", "en-US"⟩,
          currentSession := some () }
        (some "api key not valid")).1.lastSessionParams =
      some ⟨"k", "", "interview", "en-US"⟩ ∧
    (onerror
        { initState 0 with
          lastSessionParams := some ⟨"k", "", "interview", "en-US"⟩,
          currentSession := some () }
        (some "api key not valid")).1.reconnectionAttempts = 0 ∧
    (onerror
        { initState 0 with
          lastSessionParams := some ⟨"k", "", "interview", "en-US"⟩,
          currentSession := some () }
        (some "api key not valid")).2 =
      [RendererEvent.updateStatus "Error: api key not valid"] := by
  decide

open GeminiClass in
/-- Claim C8.  The close-session handler is idempotent: from every state it
returns success, clears the stored reconnection parameters, releases the
transport and the audio subprocess if present, and a second call is a no-op
returning success again from the same closed state. -/
theorem claim_C8_close_idempotent (st : ServiceState) :
    (closeSession st).2 = { success := true, error := none } ∧
    (closeSession st).1.lastSessionParams = none ∧
    (closeSession st).1.currentSession = none ∧
    (closeSession st).1.systemAudioProc = none ∧
    closeSession (closeSession st).1 =
      ((closeSession st).1, { success := true, error := none }) := by
  rcases hs : st.systemAudioProc with _ | u <;>
    rcases hc : st.currentSession with _ | v <;>
      simp [closeSession, stopMacOSAudioCapture, hs, hc]

open GeminiClass in
/-- Claim C7.  Input validation always returns a typed failure result: with
no active session every send handler returns the not-connected failure; a
connected send-image succeeds exactly when the decoded payload is at least
1000 bytes and otherwise fails with "Image buffer too small"; a connected
send-text fails with a typed result on whitespace-only text. -/
theorem claim_C7_input_validation (decodeLen : String → Nat) (st : ServiceState)
    (data : Option String) (text : String) :
    (st.currentSession = none →
      sendAudioContent st = { success := false, error := some "No active Gemini session" } ∧
      sendImageContent decodeLen st data =
        { success := false, error := some "No active Gemini session" } ∧
      sendTextMessage st text =
        { success := false, error := some "No active Gemini session" }) ∧
    (st.currentSession ≠ none →
      (∀ d : String, d ≠ "" → 1000 ≤ decodeLen d →
        sendImageContent decodeLen st (some d) = { success := true, error := none }) ∧
      (∀ d : String, d ≠ "" → decodeLen d < 1000 →
        sendImageContent decodeLen st (some d) =
          { success := false, error := some "Image buffer too small" }) ∧
      (jsTrim text = "" →
        sendTextMessage st text =
          { success := false, error := some "Invalid text message" })) := by
  constructor
  · intro h
    refine ⟨?_, ?_, ?_⟩ <;>
      simp [sendAudioContent, sendImageContent, sendTextMessage, h]
  · intro h
    rcases hc : st.currentSession with _ | u
    · exact absurd hc h
    refine ⟨?_, ?_, ?_⟩
    · intro d hd hlen
      have : ¬ decodeLen d < 1000 := by omega
      simp [sendImageContent, hc, jsTruthyStr, hd, this]
    · intro d hd hlen
      simp [sendImageContent, hc, jsTruthyStr, hd, hlen]
    · intro htrim
      have hlen : (jsTrim text).length = 0 := by rw [htrim]; decide
      simp [sendTextMessage, hc, hlen]

open GeminiClass in
/-- Claim C7 witness: with a live session a 2000-byte decoded image payload
succeeds and a 500-byte one fails with "Image buffer too small"; with no
session, send-text returns the not-connected failure. -/
theorem claim_C7_witness :
    ({ initState 0 with currentSession := some () } : ServiceState).currentSession ≠ none ∧
    sendImageContent (fun _ => 2000) { initState 0 with currentSession := some () }
      (some "img") = { success := true, error := none } ∧
    sendImageContent (fun _ => 500) { initState 0 with currentSession := some () }
      (some "img") = { success := false, error := some "Image buffer too small" } ∧
    sendTextMessage (initState 0) "hi" =
      { success := false, error := some "No active Gemini session" } :=
  ⟨by decide,
    ((claim_C7_input_validation (fun _ => 2000)
        { initState 0 with currentSession := some () } none "").2 (by decide)).1
      "img" (by decide) (by decide),
    ((claim_C7_input_validation (fun _ => 500)
        { initState 0 with currentSession := some () } none "").2 (by decide)).2.1
      "img" (by decide) (by decide),
    ((claim_C7_input_validation (fun _ => 0) (initState 0) none "hi").1 (by decide)).2.2⟩

open GeminiClass in
/-- Claim C6.  Whenever a context-replay message is produced after a
reconnection (live session present and at least one usable transcription in
the history), it is exactly the fixed instruction header followed by every
transcription whose trimmed value is non-empty, in history order, joined by
newlines. -/
theorem claim_C6_reconnection_context (st : ServiceState)
    (hs : st.currentSession.isSome = true)
    (hts : (st.conversationHistory.map (fun turn => turn.transcription)).filter
        (fun t => t != "" && decide (0 < (jsTrim t).length)) ≠ []) :
    sendReconnectionContext st =
      some ("Till now all these questions were asked in the interview, answer the last one please:\n\n"
        ++ String.intercalate "\n"
          ((st.conversationHistory.map (fun turn => turn.transcription)).filter
            (fun t => t != "" && decide (0 < (jsTrim t).length)))) ∧
    (st.conversationHistory.map (fun turn => turn.transcription)).filter
        (fun t => t != "" && decide (0 < (jsTrim t).length)) =
      (st.conversationHistory.map (fun turn => turn.transcription)).filter
        (fun t => jsTrim t != "") := by
  have key : ∀ s : String, decide (0 < s.length) = (s != "") := by
    intro s
    rcases s with ⟨l⟩
    cases l with
    | nil => decide
    | cons c cs =>
      have hpos : 0 < (String.mk (c :: cs)).length := by
        show 0 < (c :: cs).length
        simp
      have hne : String.mk (c :: cs) ≠ "" := by
        intro hmk
        have hdata : (c :: cs) = ([] : List Char) := congrArg String.data hmk
        exact absurd hdata (by simp)
      simp [hpos, bne_iff_ne, hne]
  have hfuneq :
      (fun t : String => t != "" && decide (0 < (jsTrim t).length)) =
        (fun t : String => jsTrim t != "") := by
    funext t
    by_cases ht : t = ""
    · subst ht; decide
    · have ht2 : (t != "") = true := by simp [bne_iff_ne, ht]
      rw [ht2, Bool.true_and, key (jsTrim t)]
  constructor
  · have hno : st.currentSession.isNone = false := by
      rcases hcs : st.currentSession with _ | u
      · rw [hcs] at hs; simp at hs
      · rfl
    have hne : st.conversationHistory ≠ [] := by
      intro hnil
      exact hts (by rw [hnil]; rfl)
    have hlen0 : decide (st.conversationHistory.length = 0) = false := by
      simp [List.length_eq_zero, hne]
    have htlen : ¬ ((st.conversationHistory.map (fun turn => turn.transcription)).filter
        (fun t => t != "" && decide (0 < (jsTrim t).length))).length = 0 := by
      simp only [List.length_eq_zero]
      exact hts
    simp only [sendReconnectionContext, hno, hlen0, Bool.or_self, Bool.false_eq_true,
      if_false, if_neg htlen]
  · rw [hfuneq]

open GeminiClass in
/-- Claim C6 witness: with two turns in the history, the replay message
contains both prior transcriptions in chronological order. -/
theorem claim_C6_witness :
    ({ initState 0 with
        currentSession := some (),
        conversationHistory := [⟨10, "q1", "a1"⟩, ⟨20, "q2", "a2"⟩] } :
      ServiceState).currentSession.isSome = true ∧
    sendReconnectionContext
      { initState 0 with
        currentSession := some (),
        conversationHistory := [⟨10, "q1", "a1"⟩, ⟨20, "q2", "a2"⟩] } =
      some "Till now all these questions were asked in the interview, answer the last one please:\n\nq1\nq2" := by
  refine ⟨by decide, ?_⟩
  have h := (claim_C6_reconnection_context
    { initState 0 with
      currentSession := some (),
      conversationHistory := [⟨10, "q1", "a1"⟩, ⟨20, "q2", "a2"⟩] }
    (by decide) (by decide)).1
  rw [h]
  decide

namespace GeminiClass

/-- Fragment accumulation only updates the two pending buffers: the state is
an update of the input state in those two fields. -/
theorem accumulate_exists (st : ServiceState) (msg : ServerMessage) :
    ∃ a b, accumulate st msg =
      { st with currentTranscription := a, messageBuffer := b } := by
  have hfold : ∀ (parts : List MessagePart) (s : ServiceState),
      ∃ b, parts.foldl
        (fun s p =>
          match p.text with
          | some t => if t != "" then { s with messageBuffer := s.messageBuffer ++ t } else s
          | none => s)
        s = { s with messageBuffer := b } := by
    intro parts
    induction parts with
    | nil => intro s; exact ⟨s.messageBuffer, rfl⟩
    | cons p ps ih =>
      intro s
      simp only [List.foldl_cons]
      rcases hp : p.text with _ | t
      · simp only [hp]; exact ih s
      · cases ht : (t != "") <;> simp only [hp, ht, if_true, Bool.false_eq_true, if_false]
        · exact ih s
        · exact ih { s with messageBuffer := s.messageBuffer ++ t }
  unfold accumulate
  rcases hti : msg.inputTranscriptionText with _ | t <;>
    rcases hmp : msg.modelTurnParts with _ | parts
  · exact ⟨st.currentTranscription, st.messageBuffer, rfl⟩
  · rcases hfold parts st with ⟨b, hb⟩
    exact ⟨st.currentTranscription, b, hb⟩
  · cases ht : (t != "") <;> simp only [ht, if_true, Bool.false_eq_true, if_false]
    · exact ⟨st.currentTranscription, st.messageBuffer, rfl⟩
    · exact ⟨st.currentTranscription ++ t, st.messageBuffer, rfl⟩
  · cases ht : (t != "") <;> simp only [ht, if_true, Bool.false_eq_true, if_false]
    · rcases hfold parts st with ⟨b, hb⟩
      exact ⟨st.currentTranscription, b, hb⟩
    · rcases hfold parts { st with currentTranscription := st.currentTranscription ++ t } with ⟨b, hb⟩
      exact ⟨st.currentTranscription ++ t, b, hb⟩

/-- Projections of accumulate on every field other than the two buffers. -/
theorem accumulate_proj (st : ServiceState) (msg : ServerMessage) :
    (accumulate st msg).currentSession = st.currentSession ∧
    (accumulate st msg).isInitializingSession = st.isInitializingSession ∧
    (accumulate st msg).systemAudioProc = st.systemAudioProc ∧
    (accumulate st msg).reconnectionAttempts = st.reconnectionAttempts ∧
    (accumulate st msg).lastSessionParams = st.lastSessionParams := by
  rcases accumulate_exists st msg with ⟨a, b, h⟩
  rw [h]
  exact ⟨rfl, rfl, rfl, rfl, rfl⟩

/-- saveConversationTurn only updates session id, buffers and history. -/
theorem saveConversationTurn_frame (now : Nat) (t r : String) (st : ServiceState) :
    (saveConversationTurn now t r st).1.currentSession = st.currentSession ∧
    (saveConversationTurn now t r st).1.isInitializingSession = st.isInitializingSession ∧
    (saveConversationTurn now t r st).1.systemAudioProc = st.systemAudioProc ∧
    (saveConversationTurn now t r st).1.reconnectionAttempts = st.reconnectionAttempts ∧
    (saveConversationTurn now t r st).1.lastSessionParams = st.lastSessionParams := by
  unfold saveConversationTurn initNewSession
  by_cases h : jsTruthyStr st.currentSessionId = true
  · simp [h]
  · have h2 : jsTruthyStr st.currentSessionId = false := by
      revert h; cases jsTruthyStr st.currentSessionId <;> simp
    simp [h2]

/-- The onmessage callback never touches the transport handle, the
initialization flag, the subprocess handle, the attempt counter or the
stored reconnection parameters. -/
theorem onmessage_frame (now : Nat) (st : ServiceState) (msg : ServerMessage) :
    (onmessage now st msg).1.currentSession = st.currentSession ∧
    (onmessage now st msg).1.isInitializingSession = st.isInitializingSession ∧
    (onmessage now st msg).1.systemAudioProc = st.systemAudioProc ∧
    (onmessage now st msg).1.reconnectionAttempts = st.reconnectionAttempts ∧
    (onmessage now st msg).1.lastSessionParams = st.lastSessionParams := by
  have hacc := accumulate_proj st msg
  have hsv := saveConversationTurn_frame now
    (accumulate st msg).currentTranscription (accumulate st msg).messageBuffer
    (accumulate st msg)
  have hcomb :
      (saveConversationTurn now (accumulate st msg).currentTranscription
          (accumulate st msg).messageBuffer (accumulate st msg)).1.currentSession =
        st.currentSession ∧
      (saveConversationTurn now (accumulate st msg).currentTranscription
          (accumulate st msg).messageBuffer (accumulate st msg)).1.isInitializingSession =
        st.isInitializingSession ∧
      (saveConversationTurn now (accumulate st msg).currentTranscription
          (accumulate st msg).messageBuffer (accumulate st msg)).1.systemAudioProc =
        st.systemAudioProc ∧
      (saveConversationTurn now (accumulate st msg).currentTranscription
          (accumulate st msg).messageBuffer (accumulate st msg)).1.reconnectionAttempts =
        st.reconnectionAttempts ∧
      (saveConversationTurn now (accumulate st msg).currentTranscription
          (accumulate st msg).messageBuffer (accumulate st msg)).1.lastSessionParams =
        st.lastSessionParams :=
    ⟨hsv.1.trans hacc.1, hsv.2.1.trans hacc.2.1, hsv.2.2.1.trans hacc.2.2.1,
      hsv.2.2.2.1.trans hacc.2.2.2.1, hsv.2.2.2.2.trans hacc.2.2.2.2⟩
  unfold onmessage
  cases hg : msg.generationComplete <;> cases htc : msg.turnComplete <;>
    simp only [Bool.false_eq_true, if_false, if_true]
  · exact hacc
  · exact hacc
  all_goals
    cases hcb : ((accumulate st msg).currentTranscription != "" &&
        (accumulate st msg).messageBuffer != "") <;>
      simp only [hcb, Bool.false_eq_true, if_false, if_true]
  all_goals first | exact hacc | exact hcomb

/-- With the isReconnection flag set, initGeminiSession leaves the attempt
counter untouched. -/
theorem initGeminiSession_attempts_recon (now : Nat) (ok : Bool) (p : ReconnectionParams)
    (st : ServiceState) :
    (initGeminiSession now ok p true st).1.reconnectionAttempts = st.reconnectionAttempts := by
  unfold initGeminiSession
  by_cases h : st.isInitializingSession <;> simp [h]

/-- On a fresh (non-reconnection) call, initGeminiSession resets the attempt
counter to 0 when it is accepted and leaves the state alone when rejected. -/
theorem initGeminiSession_attempts_new (now : Nat) (ok : Bool) (p : ReconnectionParams)
    (st : ServiceState) :
    (initGeminiSession now ok p false st).1.reconnectionAttempts =
      if st.isInitializingSession then st.reconnectionAttempts else 0 := by
  unfold initGeminiSession initNewSession
  by_cases h : st.isInitializingSession <;> simp [h]

/-- The attempt counter never leaves the interval bounded by
maxReconnectionAttempts under attemptReconnection. -/
theorem attemptReconnection_le (outcomes : Nat → Bool) :
    ∀ (fuel : Nat) (st : ServiceState),
    st.reconnectionAttempts ≤ maxReconnectionAttempts →
    (attemptReconnection outcomes fuel st).1.reconnectionAttempts ≤ maxReconnectionAttempts := by
  intro fuel
  induction fuel with
  | zero => intro st h; exact h
  | succ n ih =>
    intro st h
    obtain ⟨cs, cid, ct, hist, ini, proc, mb, ra, ls⟩ := st
    rcases ls with _ | p
    · simp only [attemptReconnection]; exact h
    · simp only [attemptReconnection]
      by_cases hge : maxReconnectionAttempts ≤ ra
      · rw [if_pos hge]; exact h
      · rw [if_neg hge]
        have hai : (initGeminiSession 0 (outcomes ra) p true
            ⟨cs, cid, ct, hist, ini, proc, mb, ra + 1, some p⟩).1.reconnectionAttempts =
            ra + 1 :=
          initGeminiSession_attempts_recon 0 (outcomes ra) p
            ⟨cs, cid, ct, hist, ini, proc, mb, ra + 1, some p⟩
        rcases hr : (initGeminiSession 0 (outcomes ra) p true
            ⟨cs, cid, ct, hist, ini, proc, mb, ra + 1, some p⟩).2.1 with _ | sess
        · simp only [hr]
          by_cases hlt : (initGeminiSession 0 (outcomes ra) p true
              ⟨cs, cid, ct, hist, ini, proc, mb, ra + 1, some p⟩).1.reconnectionAttempts <
              maxReconnectionAttempts
          · rw [if_pos hlt]
            exact ih _ (Nat.le_of_lt hlt)
          · rw [if_neg hlt]
            rw [hai]
            omega
        · simp only [hr]
          exact Nat.zero_le _

/-- If attemptReconnection leaves the counter at 0 then either it reported a
successful reconnection or the counter was already 0 on entry. -/
theorem attemptReconnection_reset (outcomes : Nat → Bool) :
    ∀ (fuel : Nat) (st : ServiceState),
    (attemptReconnection outcomes fuel st).1.reconnectionAttempts = 0 →
    (attemptReconnection outcomes fuel st).2.1 = true ∨ st.reconnectionAttempts = 0 := by
  intro fuel
  induction fuel with
  | zero => intro st h; exact Or.inr h
  | succ n ih =>
    intro st
    obtain ⟨cs, cid, ct, hist, ini, proc, mb, ra, ls⟩ := st
    rcases ls with _ | p
    · simp only [attemptReconnection]; exact fun h => Or.inr h
    · simp only [attemptReconnection]
      by_cases hge : maxReconnectionAttempts ≤ ra
      · rw [if_pos hge]; exact fun h => Or.inr h
      · rw [if_neg hge]
        have hai : (initGeminiSession 0 (outcomes ra) p true
            ⟨cs, cid, ct, hist, ini, proc, mb, ra + 1, some p⟩).1.reconnectionAttempts =
            ra + 1 :=
          initGeminiSession_attempts_recon 0 (outcomes ra) p
            ⟨cs, cid, ct, hist, ini, proc, mb, ra + 1, some p⟩
        rcases hr : (initGeminiSession 0 (outcomes ra) p true
            ⟨cs, cid, ct, hist, ini, proc, mb, ra + 1, some p⟩).2.1 with _ | sess
        · simp only [hr]
          by_cases hlt : (initGeminiSession 0 (outcomes ra) p true
              ⟨cs, cid, ct, hist, ini, proc, mb, ra + 1, some p⟩).1.reconnectionAttempts <
              maxReconnectionAttempts
          · rw [if_pos hlt]
            intro h
            rcases ih _ h with hrec | hzero
            · exact Or.inl hrec
            · rw [hai] at hzero
              exact absurd hzero (by omega)
          · rw [if_neg hlt]
            intro h
            rw [hai] at h
            exact absurd h (by omega)
        · simp only [hr]
          exact fun _ => Or.inl trivial

/-- Every driver step keeps the attempt counter within the budget. -/
theorem step_attempts_le (st : ServiceState) (ev : DriverEvent)
    (h : st.reconnectionAttempts ≤ maxReconnectionAttempts) :
    (step st ev).1.reconnectionAttempts ≤ maxReconnectionAttempts := by
  cases ev with
  | connectCall p now ok =>
    simp only [step]
    rcases hr : (initGeminiSession now ok p false st).2.1 with _ | s <;>
      simp only [hr] <;>
      rw [initGeminiSession_attempts_new] <;>
      by_cases hi : st.isInitializingSession
    · rw [if_pos hi]; exact h
    · rw [if_neg hi]; exact Nat.zero_le _
    · rw [if_pos hi]; exact h
    · rw [if_neg hi]; exact Nat.zero_le _
  | onopenEvt => exact h
  | onmessageEvt now msg =>
    simp only [step]
    rw [(onmessage_frame now st msg).2.2.2.1]
    exact h
  | onerrorEvt m =>
    simp only [step, onerror]
    cases hb : isApiKeyError m <;>
      simp only [hb, if_true, Bool.false_eq_true, if_false]
    · exact h
    · exact Nat.le_refl _
  | oncloseEvt reason outcomes =>
    simp only [step, onclose]
    cases hb : isApiKeyError reason <;>
      simp only [hb, if_true, Bool.false_eq_true, if_false]
    · cases hg : (st.lastSessionParams.isSome &&
          decide (st.reconnectionAttempts < maxReconnectionAttempts)) <;>
        simp only [hg, if_true, Bool.false_eq_true, if_false]
      · exact h
      · exact attemptReconnection_le outcomes maxReconnectionAttempts st h
    · exact Nat.le_refl _
  | closeSessionCall =>
    simp only [step, closeSession, stopMacOSAudioCapture]
    rcases hs : st.systemAudioProc with _ | u <;>
      rcases hc : st.currentSession with _ | v <;>
        simp only [hs, hc] <;> exact h

/-- A driver step can only zero a non-zero attempt counter through an
accepted fresh connect call or through an onclose whose reconnection
procedure reported success. -/
theorem step_attempts_reset (st : ServiceState) (ev : DriverEvent)
    (h : (step st ev).1.reconnectionAttempts = 0) :
    st.reconnectionAttempts = 0 ∨
    (∃ p now ok, ev = DriverEvent.connectCall p now ok) ∨
    (∃ reason outcomes, ev = DriverEvent.oncloseEvt reason outcomes ∧
      (onclose outcomes st reason).2.1 = true) := by
  cases ev with
  | connectCall p now ok => exact Or.inr (Or.inl ⟨p, now, ok, rfl⟩)
  | onopenEvt => exact Or.inl h
  | onmessageEvt now msg =>
    simp only [step] at h
    exact Or.inl ((onmessage_frame now st msg).2.2.2.1.symm.trans h)
  | onerrorEvt m =>
    simp only [step, onerror] at h
    cases hb : isApiKeyError m <;>
      rw [hb] at h <;> simp only [if_true, Bool.false_eq_true, if_false] at h
    · exact Or.inl h
    · exact absurd h (by decide)
  | oncloseEvt reason outcomes =>
    simp only [step, onclose] at h
    cases hb : isApiKeyError reason <;>
      rw [hb] at h <;> simp only [if_true, Bool.false_eq_true, if_false] at h
    · cases hg : (st.lastSessionParams.isSome &&
          decide (st.reconnectionAttempts < maxReconnectionAttempts)) <;>
        rw [hg] at h <;> simp only [if_true, Bool.false_eq_true, if_false] at h
      · exact Or.inl h
      · rcases attemptReconnection_reset outcomes maxReconnectionAttempts st h with hsucc | hz
        · refine Or.inr (Or.inr ⟨reason, outcomes, rfl, ?_⟩)
          simp only [onclose, hb, if_true, Bool.false_eq_true, if_false, hg]
          exact hsucc
        · exact Or.inl hz
    · exact absurd h (by decide)
  | closeSessionCall =>
    simp only [step, closeSession, stopMacOSAudioCapture] at h
    rcases hs : st.systemAudioProc with _ | u <;>
      rcases hc : st.currentSession with _ | v <;>
        rw [hs, hc] at h <;> exact Or.inl h

/-- The attempt-counter budget is preserved along any fold of driver
steps. -/
theorem run_attempts_le_aux :
    ∀ (evs : List DriverEvent) (st : ServiceState) (acc : List RendererEvent),
    st.reconnectionAttempts ≤ maxReconnectionAttempts →
    ((evs.foldl (fun a ev => ((step a.1 ev).1, a.2 ++ (step a.1 ev).2))
        (st, acc)).1.reconnectionAttempts ≤ maxReconnectionAttempts) := by
  intro evs
  induction evs with
  | nil => intro st acc h; exact h
  | cons e es ih =>
    intro st acc h
    simp only [List.foldl_cons]
    exact ih (step st e).1 (acc ++ (step st e).2) (step_attempts_le st e h)

end GeminiClass

open GeminiClass in
/-- Claim C3 (amended).  Over every sequence of connect calls and transport
callbacks the reconnection attempt counter never exceeds
maxReconnectionAttempts (3), and a step zeroes a non-zero counter only at a
fresh (non-reconnection) connect call or immediately after a reconnection
procedure that reported success — the claim wrongly excluded the fresh
connect call, which also resets the counter to 0. -/
theorem claim_C3_attempts :
    (∀ (now : Nat) (evs : List DriverEvent),
      (run (initState now) evs).1.reconnectionAttempts ≤ maxReconnectionAttempts) ∧
    (∀ (st : ServiceState) (ev : DriverEvent),
      st.reconnectionAttempts ≤ maxReconnectionAttempts →
      (step st ev).1.reconnectionAttempts ≤ maxReconnectionAttempts) ∧
    (∀ (st : ServiceState) (ev : DriverEvent),
      (step st ev).1.reconnectionAttempts = 0 →
      st.reconnectionAttempts = 0 ∨
      (∃ p now ok, ev = DriverEvent.connectCall p now ok) ∨
      (∃ reason outcomes, ev = DriverEvent.oncloseEvt reason outcomes ∧
        (onclose outcomes st reason).2.1 = true)) := by
  refine ⟨?_, step_attempts_le, step_attempts_reset⟩
  intro now evs
  exact run_attempts_le_aux evs (initState now) [] (Nat.zero_le _)

open GeminiClass in
/-- Claim C3 witness: the budget hypothesis holds at the initial state and
the bound is preserved by a concrete step. -/
theorem claim_C3_witness :
    (initState 0).reconnectionAttempts ≤ maxReconnectionAttempts ∧
    (step (initState 0) DriverEvent.onopenEvt).1.reconnectionAttempts ≤
      maxReconnectionAttempts :=
  ⟨by decide, claim_C3_attempts.2.1 (initState 0) DriverEvent.onopenEvt (by decide)⟩

open GeminiClass in
/-- Claim C3 counterexample.  The claim states the counter resets to 0 ONLY
immediately after a successful reconnect (an onopen following a Reconnecting
state), never otherwise.  Concretely: a connect succeeds, then a transient
onclose exhausts all three reconnection attempts (every attempt fails),
leaving the counter at 3; a subsequent fresh connect call — not a transport
callback, and no reconnect succeeded — resets the counter to 0. -/
theorem claim_C3_counterexample :
    (run (initState 0)
        [DriverEvent.connectCall ⟨"k", "", "interview", "en-US"⟩ 1 true,
         DriverEvent.oncloseEvt (some "network error") (fun _ => false)]).1.reconnectionAttempts =
      3 ∧
    (step
        (run (initState 0)
          [DriverEvent.connectCall ⟨"k", "", "interview", "en-US"⟩ 1 true,
           DriverEvent.oncloseEvt (some "network error") (fun _ => false)]).1
        (DriverEvent.connectCall ⟨"k", "", "interview", "en-US"⟩ 2 true)).1.reconnectionAttempts =
      0 := by
  decide

/-- Inverse of readInt16LE on bytes: re-encoding the decoded left sample
reproduces exactly the two source bytes. -/
theorem writeInt16LE_readInt16LE (b : List UInt8) (off : Nat) :
    writeInt16LE (readInt16LE b off) = [b.getD off 0, b.getD (off + 1) 0] := by
  have hofNat : ∀ x : UInt8, UInt8.ofNat x.toNat = x := fun x =>
    UInt8.ext (by
      have hv : (UInt8.ofNat x.toNat).toNat = x.toNat % 2 ^ 8 := rfl
      rw [hv]
      exact Nat.mod_eq_of_lt x.toNat_lt)
  have hlo : (b.getD off 0).toNat < 256 := (b.getD off 0).toNat_lt
  have hhi : (b.getD (off + 1) 0).toNat < 256 := (b.getD (off + 1) 0).toNat_lt
  unfold writeInt16LE readInt16LE
  have hmod : ((if (b.getD off 0).toNat + 256 * (b.getD (off + 1) 0).toNat < 32768 then
        (((b.getD off 0).toNat + 256 * (b.getD (off + 1) 0).toNat : Nat) : Int)
      else (((b.getD off 0).toNat + 256 * (b.getD (off + 1) 0).toNat : Nat) : Int) - 65536) %
        65536).toNat = (b.getD off 0).toNat + 256 * (b.getD (off + 1) 0).toNat := by
    split <;> omega
  have h1 : ((b.getD off 0).toNat + 256 * (b.getD (off + 1) 0).toNat) % 256 =
      (b.getD off 0).toNat := by omega
  have h2 : ((b.getD off 0).toNat + 256 * (b.getD (off + 1) 0).toNat) / 256 =
      (b.getD (off + 1) 0).toNat := by omega
  simp only [hmod, h1, h2, hofNat]

namespace GeminiClass

/-- Byte-level reading of the downmix: the mono buffer is the flat list of
the two bytes of the left 16-bit sample of each stereo pair. -/
theorem convertStereoToMono_bytes (b : List UInt8) :
    convertStereoToMono b =
      (List.range (b.length / 4)).flatMap
        (fun i => [b.getD (i * 4) 0, b.getD (i * 4 + 1) 0]) := by
  unfold convertStereoToMono
  have hf : (fun i => writeInt16LE (readInt16LE b (i * 4))) =
      (fun i => [b.getD (i * 4) 0, b.getD (i * 4 + 1) 0]) := by
    funext i
    exact writeInt16LE_readInt16LE b (i * 4)
  rw [hf]

/-- The mono buffer holds two bytes per stereo sample pair: half the size of
a full stereo buffer. -/
theorem convertStereoToMono_length (b : List UInt8) :
    (convertStereoToMono b).length = 2 * (b.length / 4) := by
  rw [convertStereoToMono_bytes]
  have key : ∀ n : Nat,
      ((List.range n).flatMap
        (fun i => [b.getD (i * 4) 0, b.getD (i * 4 + 1) 0])).length = 2 * n := by
    intro n
    induction n with
    | zero => rfl
    | succ m ih =>
      rw [List.range_succ, List.flatMap_append, List.length_append, ih]
      rfl
  exact key (b.length / 4)

/-- One unfolding of the framing loop when a full frame is buffered. -/
theorem frameLoop_cons (l : List UInt8) (h : CHUNK_SIZE ≤ l.length) :
    frameLoop l =
      ((frameLoop (l.drop CHUNK_SIZE)).1,
        convertStereoToMono (l.take CHUNK_SIZE) :: (frameLoop (l.drop CHUNK_SIZE)).2) := by
  rw [frameLoop, dif_pos h]

/-- One unfolding of the framing loop when less than a frame is buffered. -/
theorem frameLoop_last (l : List UInt8) (h : ¬ CHUNK_SIZE ≤ l.length) :
    frameLoop l = (l, []) := by
  rw [frameLoop, dif_neg h]

/-- The framing loop always leaves a residual strictly shorter than one
frame. -/
theorem frameLoop_residual_lt (buf : List UInt8) :
    (frameLoop buf).1.length < CHUNK_SIZE := by
  have key : ∀ (n : Nat) (l : List UInt8), l.length ≤ n →
      (frameLoop l).1.length < CHUNK_SIZE := by
    intro n
    induction n with
    | zero =>
      intro l hl
      have hc : CHUNK_SIZE = 9600 := rfl
      have h : ¬ CHUNK_SIZE ≤ l.length := by omega
      rw [frameLoop_last l h]
      show l.length < CHUNK_SIZE
      omega
    | succ m ih =>
      intro l hl
      by_cases h : CHUNK_SIZE ≤ l.length
      · rw [frameLoop_cons l h]
        refine ih (l.drop CHUNK_SIZE) ?_
        rw [List.length_drop]
        have hc : CHUNK_SIZE = 9600 := rfl
        omega
      · rw [frameLoop_last l h]
        show l.length < CHUNK_SIZE
        omega
  exact key buf.length buf (Nat.le_refl _)

/-- The residual left by the framing loop is a suffix of its input: the most
recent bytes. -/
theorem frameLoop_residual_suffix (buf : List UInt8) :
    (frameLoop buf).1 <:+ buf := by
  have key : ∀ (n : Nat) (l : List UInt8), l.length ≤ n → (frameLoop l).1 <:+ l := by
    intro n
    induction n with
    | zero =>
      intro l hl
      have hc : CHUNK_SIZE = 9600 := rfl
      have h : ¬ CHUNK_SIZE ≤ l.length := by omega
      rw [frameLoop_last l h]
    | succ m ih =>
      intro l hl
      by_cases h : CHUNK_SIZE ≤ l.length
      · rw [frameLoop_cons l h]
        refine (ih (l.drop CHUNK_SIZE) ?_).trans (List.drop_suffix _ _)
        rw [List.length_drop]
        have hc : CHUNK_SIZE = 9600 := rfl
        omega
      · rw [frameLoop_last l h]
  exact key buf.length buf (Nat.le_refl _)

/-- Closed form of the framing loop: the emitted frames are the downmixes of
the consecutive full CHUNK_SIZE slices, and the residual is what remains. -/
theorem frameLoop_eq (l : List UInt8) :
    frameLoop l =
      (l.drop ((l.length / CHUNK_SIZE) * CHUNK_SIZE),
        (List.range (l.length / CHUNK_SIZE)).map
          (fun i => convertStereoToMono ((l.drop (i * CHUNK_SIZE)).take CHUNK_SIZE))) := by
  have key : ∀ (n : Nat) (l : List UInt8), l.length ≤ n →
      frameLoop l =
        (l.drop ((l.length / CHUNK_SIZE) * CHUNK_SIZE),
          (List.range (l.length / CHUNK_SIZE)).map
            (fun i => convertStereoToMono ((l.drop (i * CHUNK_SIZE)).take CHUNK_SIZE))) := by
    intro n
    induction n with
    | zero =>
      intro l hl
      have hc : CHUNK_SIZE = 9600 := rfl
      have h : ¬ CHUNK_SIZE ≤ l.length := by omega
      rw [frameLoop_last l h]
      have h0 : l.length / CHUNK_SIZE = 0 := Nat.div_eq_of_lt (by omega)
      rw [h0]
      simp
    | succ m ih =>
      intro l hl
      by_cases h : CHUNK_SIZE ≤ l.length
      case neg =>
        rw [frameLoop_last l h]
        have h0 : l.length / CHUNK_SIZE = 0 := Nat.div_eq_of_lt (by omega)
        rw [h0]
        simp
      case pos =>
      have hpos : 0 < CHUNK_SIZE := by decide
      have hdiv : l.length / CHUNK_SIZE = (l.length - CHUNK_SIZE) / CHUNK_SIZE + 1 :=
        Nat.div_eq_sub_div hpos h
      have hrest : (l.drop CHUNK_SIZE).length = l.length - CHUNK_SIZE := by
        rw [List.length_drop]
      have hih := ih (l.drop CHUNK_SIZE) (by rw [hrest]; have hc : CHUNK_SIZE = 9600 := rfl; omega)
      have hshift : ∀ i : Nat,
          (l.drop CHUNK_SIZE).drop (i * CHUNK_SIZE) = l.drop ((i + 1) * CHUNK_SIZE) := by
        intro i
        rw [List.drop_drop]
        congr 1
        ring
      rw [frameLoop_cons l h, hih, hrest, hdiv]
      apply Prod.ext
      · show (l.drop CHUNK_SIZE).drop
            ((l.length - CHUNK_SIZE) / CHUNK_SIZE * CHUNK_SIZE) =
          l.drop (((l.length - CHUNK_SIZE) / CHUNK_SIZE + 1) * CHUNK_SIZE)
        rw [List.drop_drop]
        congr 1
        ring
      · show convertStereoToMono (l.take CHUNK_SIZE) ::
            (List.range ((l.length - CHUNK_SIZE) / CHUNK_SIZE)).map
              (fun i => convertStereoToMono
                (((l.drop CHUNK_SIZE).drop (i * CHUNK_SIZE)).take CHUNK_SIZE)) =
          (List.range ((l.length - CHUNK_SIZE) / CHUNK_SIZE + 1)).map
            (fun i => convertStereoToMono ((l.drop (i * CHUNK_SIZE)).take CHUNK_SIZE))
        have hhead : convertStereoToMono ((l.drop (0 * CHUNK_SIZE)).take CHUNK_SIZE) =
            convertStereoToMono (l.take CHUNK_SIZE) := by
          rw [Nat.zero_mul, List.drop_zero]
        have htail : (List.range ((l.length - CHUNK_SIZE) / CHUNK_SIZE)).map
              ((fun i => convertStereoToMono ((l.drop (i * CHUNK_SIZE)).take CHUNK_SIZE)) ∘
                Nat.succ) =
            (List.range ((l.length - CHUNK_SIZE) / CHUNK_SIZE)).map
              (fun i => convertStereoToMono
                (((l.drop CHUNK_SIZE).drop (i * CHUNK_SIZE)).take CHUNK_SIZE)) := by
          apply List.map_congr_left
          intro i _
          show convertStereoToMono ((l.drop (Nat.succ i * CHUNK_SIZE)).take CHUNK_SIZE) =
            convertStereoToMono (((l.drop CHUNK_SIZE).drop (i * CHUNK_SIZE)).take CHUNK_SIZE)
          rw [hshift i]
        rw [List.range_succ_eq_map, List.map_cons, List.map_map, hhead, htail]
  exact key l.length l (Nat.le_refl _)

/-- Compositionality of the framing loop over stream concatenation: feeding
more bytes after a partial stream behaves as if the residual of the first
part were prepended to the new bytes. -/
theorem frameLoop_append (s d : List UInt8) :
    frameLoop (s ++ d) =
      ((frameLoop ((frameLoop s).1 ++ d)).1,
        (frameLoop s).2 ++ (frameLoop ((frameLoop s).1 ++ d)).2) := by
  have key : ∀ (n : Nat) (s : List UInt8), s.length ≤ n →
      frameLoop (s ++ d) =
        ((frameLoop ((frameLoop s).1 ++ d)).1,
          (frameLoop s).2 ++ (frameLoop ((frameLoop s).1 ++ d)).2) := by
    intro n
    induction n with
    | zero =>
      intro s hl
      have hc : CHUNK_SIZE = 9600 := rfl
      have h : ¬ CHUNK_SIZE ≤ s.length := by omega
      rw [frameLoop_last s h]
      simp
    | succ m ih =>
      intro s hl
      by_cases h : CHUNK_SIZE ≤ s.length
      case neg =>
        rw [frameLoop_last s h]
        simp
      case pos =>
      have hc : CHUNK_SIZE = 9600 := rfl
      have hs2 : CHUNK_SIZE ≤ (s ++ d).length := by
        rw [List.length_append]
        omega
      have htake : (s ++ d).take CHUNK_SIZE = s.take CHUNK_SIZE :=
        List.take_append_of_le_length h
      have hdrop : (s ++ d).drop CHUNK_SIZE = s.drop CHUNK_SIZE ++ d :=
        List.drop_append_of_le_length h
      have hih := ih (s.drop CHUNK_SIZE) (by rw [List.length_drop]; omega)
      rw [frameLoop_cons (s ++ d) hs2, htake, hdrop, hih, frameLoop_cons s h]
      rfl
  exact key s.length s (Nat.le_refl _)

/-- The residual cap of the stdout handler never fires: the framed residual
is already shorter than one frame, hence far below maxBufferSize, so the
handler is exactly the framing loop on the concatenated bytes. -/
theorem onData_eq_frameLoop (buf data : List UInt8) :
    onData buf data = frameLoop (buf ++ data) := by
  have h1 := frameLoop_residual_lt (buf ++ data)
  have hc : CHUNK_SIZE = 9600 := rfl
  have hm : maxBufferSize = 48000 := rfl
  have hcond : ¬ (maxBufferSize < (frameLoop (buf ++ data)).1.length) := by omega
  simp only [onData, if_neg hcond]

/-- Folding the stdout handler over a sequence of data events from a
short residual buffer is the framing loop on the whole accumulated
stream. -/
theorem runCapture_aux :
    ∀ (events : List (List UInt8)) (buf : List UInt8) (acc : List (List UInt8)),
    buf.length < CHUNK_SIZE →
    (events.foldl (fun a d => ((onData a.1 d).1, a.2 ++ (onData a.1 d).2)) (buf, acc)) =
      ((frameLoop (buf ++ events.flatten)).1, acc ++ (frameLoop (buf ++ events.flatten)).2) := by
  intro events
  induction events with
  | nil =>
    intro buf acc hbuf
    have h : ¬ CHUNK_SIZE ≤ buf.length := by omega
    simp only [List.foldl_nil, List.flatten_nil, List.append_nil, frameLoop_last buf h]
  | cons e es ih =>
    intro buf acc hbuf
    simp only [List.foldl_cons]
    rw [onData_eq_frameLoop buf e]
    rw [ih (frameLoop (buf ++ e)).1 (acc ++ (frameLoop (buf ++ e)).2)
      (frameLoop_residual_lt (buf ++ e))]
    rw [List.flatten_cons, ← List.append_assoc]
    rw [frameLoop_append (buf ++ e) es.flatten]
    rw [List.append_assoc]

end GeminiClass

open GeminiClass in
/-- Claim C5.  After the capture bridge processes any stdout data event the
residual unframed buffer is bounded by one second of bytes (maxBufferSize =
48000): in fact it is always strictly shorter than one frame, so the
truncation branch is never entered, and the residual is a suffix of the
accumulated input — the most recent bytes. -/
theorem claim_C5_residual_bound (buf data : List UInt8) :
    (onData buf data).1.length ≤ maxBufferSize ∧
    (onData buf data).1.length < CHUNK_SIZE ∧
    (onData buf data).1 <:+ (buf ++ data) := by
  rw [onData_eq_frameLoop]
  have h1 := frameLoop_residual_lt (buf ++ data)
  have hc : CHUNK_SIZE = 9600 := rfl
  have hm : maxBufferSize = 48000 := rfl
  exact ⟨by omega, h1, frameLoop_residual_suffix _⟩

open GeminiClass in
/-- Claim C4.  A continuous stereo byte stream delivered in arbitrary
stdout events yields exactly one mono frame per full CHUNK_SIZE (9600-byte)
slice, in capture order, each frame being the stereo-to-mono downmix of its
slice; every forwarded frame is exactly SAMPLE_RATE x BYTES_PER_SAMPLE x 0.1
= 4800 bytes, half its stereo slice; and the downmix retains exactly the two
bytes of the left 16-bit sample of each stereo pair (no averaging). -/
theorem claim_C4_capture_framing (events : List (List UInt8)) :
    (runCapture events).2 =
      (List.range (events.flatten.length / CHUNK_SIZE)).map
        (fun i => convertStereoToMono
          ((events.flatten.drop (i * CHUNK_SIZE)).take CHUNK_SIZE)) ∧
    (runCapture events).2.map List.length =
      List.replicate (events.flatten.length / CHUNK_SIZE)
        (SAMPLE_RATE * BYTES_PER_SAMPLE / 10) ∧
    (runCapture events).1 =
      events.flatten.drop ((events.flatten.length / CHUNK_SIZE) * CHUNK_SIZE) ∧
    (∀ b : List UInt8, convertStereoToMono b =
      (List.range (b.length / 4)).flatMap
        (fun i => [b.getD (i * 4) 0, b.getD (i * 4 + 1) 0])) := by
  have hpos : 0 < CHUNK_SIZE := by decide
  have hrun : runCapture events =
      ((frameLoop events.flatten).1, (frameLoop events.flatten).2) := by
    have h := runCapture_aux events [] [] (by decide)
    simpa [runCapture] using h
  refine ⟨?_, ?_, ?_, convertStereoToMono_bytes⟩
  · rw [hrun, frameLoop_eq]
  · rw [hrun, frameLoop_eq]
    show ((List.range (events.flatten.length / CHUNK_SIZE)).map
        (fun i => convertStereoToMono
          ((events.flatten.drop (i * CHUNK_SIZE)).take CHUNK_SIZE))).map List.length =
      List.replicate (events.flatten.length / CHUNK_SIZE)
        (SAMPLE_RATE * BYTES_PER_SAMPLE / 10)
    rw [List.map_map]
    apply List.eq_replicate_iff.mpr
    constructor
    · simp
    · intro x hx
      rcases List.mem_map.mp hx with ⟨i, hi, hfx⟩
      have hin : i < events.flatten.length / CHUNK_SIZE := List.mem_range.mp hi
      have hmul : (i + 1) * CHUNK_SIZE ≤ events.flatten.length :=
        (Nat.le_div_iff_mul_le hpos).mp hin
      have hsplit : (i + 1) * CHUNK_SIZE = i * CHUNK_SIZE + CHUNK_SIZE := by ring
      have hslice : ((events.flatten.drop (i * CHUNK_SIZE)).take CHUNK_SIZE).length =
          CHUNK_SIZE := by
        rw [List.length_take, List.length_drop]
        omega
      rw [← hfx]
      show ((events.flatten.drop (i * CHUNK_SIZE)).take CHUNK_SIZE |>
        convertStereoToMono |> List.length) = SAMPLE_RATE * BYTES_PER_SAMPLE / 10
      rw [convertStereoToMono_length, hslice]
      decide
  · rw [hrun, frameLoop_eq]

namespace GeminiFactory

/-- One unfolding of the factory framing loop when a full frame is
buffered. -/
theorem frameLoopF_cons (l : List UInt8) (h : CHUNK_SIZE ≤ l.length) :
    frameLoop l =
      ((frameLoop (l.drop CHUNK_SIZE)).1,
        convertStereoToMono (l.take CHUNK_SIZE) :: (frameLoop (l.drop CHUNK_SIZE)).2) := by
  rw [frameLoop, dif_pos h]

/-- One unfolding of the factory framing loop when less than a frame is
buffered. -/
theorem frameLoopF_last (l : List UInt8) (h : ¬ CHUNK_SIZE ≤ l.length) :
    frameLoop l = (l, []) := by
  rw [frameLoop, dif_neg h]

end GeminiFactory

/-- The two framing loops compute the same function. -/
theorem frameLoop_class_eq_factory (b : List UInt8) :
    GeminiClass.frameLoop b = GeminiFactory.frameLoop b := by
  have key : ∀ (n : Nat) (l : List UInt8), l.length ≤ n →
      GeminiClass.frameLoop l = GeminiFactory.frameLoop l := by
    intro n
    induction n with
    | zero =>
      intro l hl
      have hc : GeminiClass.CHUNK_SIZE = 9600 := rfl
      have h : ¬ GeminiClass.CHUNK_SIZE ≤ l.length := by omega
      rw [GeminiClass.frameLoop_last l h, GeminiFactory.frameLoopF_last l h]
    | succ m ih =>
      intro l hl
      by_cases h : GeminiClass.CHUNK_SIZE ≤ l.length
      · rw [GeminiClass.frameLoop_cons l h, GeminiFactory.frameLoopF_cons l h]
        rw [ih (l.drop GeminiClass.CHUNK_SIZE)
          (by
            rw [List.length_drop]
            have hc : GeminiClass.CHUNK_SIZE = 9600 := rfl
            omega)]
        rfl
      · rw [GeminiClass.frameLoop_last l h, GeminiFactory.frameLoopF_last l h]
  exact key b.length b (Nat.le_refl _)

/-- The two stdout data handlers compute the same function. -/
theorem onData_class_eq_factory (buf data : List UInt8) :
    GeminiClass.onData buf data = GeminiFactory.onData buf data := by
  have hmax : GeminiClass.maxBufferSize = GeminiFactory.maxBufferSize := rfl
  simp only [GeminiClass.onData, GeminiFactory.onData, frameLoop_class_eq_factory, hmax]

/-- The two capture runs compute the same function. -/
theorem runCapture_class_eq_factory (events : List (List UInt8)) :
    GeminiClass.runCapture events = GeminiFactory.runCapture events := by
  simp only [GeminiClass.runCapture, GeminiFactory.runCapture, onData_class_eq_factory]

/-- The two reconnection procedures compute the same function. -/
theorem attemptReconnection_class_eq_factory (outcomes : Nat → Bool) :
    ∀ (fuel : Nat) (st : ServiceState),
    GeminiClass.attemptReconnection outcomes fuel st =
      GeminiFactory.attemptReconnection outcomes fuel st := by
  intro fuel
  induction fuel with
  | zero => intro st; rfl
  | succ n ih =>
    intro st
    obtain ⟨cs, cid, ct, hist, ini, proc, mb, ra, ls⟩ := st
    rcases ls with _ | p
    · rfl
    · have hmax : GeminiFactory.maxReconnectionAttempts =
          GeminiClass.maxReconnectionAttempts := rfl
      have hinit : GeminiFactory.initGeminiSession = GeminiClass.initGeminiSession := rfl
      simp only [GeminiClass.attemptReconnection, GeminiFactory.attemptReconnection,
        hmax, hinit, ih]

/-- Claim C9.  The class-based GeminiService and the factory
createGeminiService are observably equivalent: starting from the same
constructor state, every sequence of public operations and transport
callbacks produces identical session states and identical renderer event
emissions, and every IPC handler, the reconnection machinery, and the audio
capture pipeline return identical results. -/
theorem claim_C9_class_factory_equivalent :
    (∀ now : Nat, GeminiClass.initState now = GeminiFactory.initState now) ∧
    (∀ (st : ServiceState) (ev : DriverEvent),
      GeminiClass.step st ev = GeminiFactory.step st ev) ∧
    (∀ (st : ServiceState) (evs : List DriverEvent),
      GeminiClass.run st evs = GeminiFactory.run st evs) ∧
    (∀ (now : Nat) (st : ServiceState) (msg : ServerMessage),
      GeminiClass.onmessage now st msg = GeminiFactory.onmessage now st msg) ∧
    (∀ (st : ServiceState) (m : Option String),
      GeminiClass.onerror st m = GeminiFactory.onerror st m) ∧
    (∀ (outcomes : Nat → Bool) (st : ServiceState) (reason : Option String),
      GeminiClass.onclose outcomes st reason = GeminiFactory.onclose outcomes st reason) ∧
    (∀ (outcomes : Nat → Bool) (fuel : Nat) (st : ServiceState),
      GeminiClass.attemptReconnection outcomes fuel st =
        GeminiFactory.attemptReconnection outcomes fuel st) ∧
    (∀ (now : Nat) (ok : Bool) (p : ReconnectionParams) (recon : Bool) (st : ServiceState),
      GeminiClass.initGeminiSession now ok p recon st =
        GeminiFactory.initGeminiSession now ok p recon st) ∧
    (∀ st : ServiceState,
      GeminiClass.sendReconnectionContext st = GeminiFactory.sendReconnectionContext st) ∧
    (∀ st : ServiceState,
      GeminiClass.sendAudioContent st = GeminiFactory.sendAudioContent st) ∧
    (∀ (decodeLen : String → Nat) (st : ServiceState) (data : Option String),
      GeminiClass.sendImageContent decodeLen st data =
        GeminiFactory.sendImageContent decodeLen st data) ∧
    (∀ (st : ServiceState) (text : String),
      GeminiClass.sendTextMessage st text = GeminiFactory.sendTextMessage st text) ∧
    (∀ st : ServiceState, GeminiClass.closeSession st = GeminiFactory.closeSession st) ∧
    (∀ st : ServiceState,
      GeminiClass.getCurrentSessionData st = GeminiFactory.getCurrentSessionData st) ∧
    (∀ b : List UInt8,
      GeminiClass.convertStereoToMono b = GeminiFactory.convertStereoToMono b) ∧
    (∀ buf data : List UInt8,
      GeminiClass.onData buf data = GeminiFactory.onData buf data) ∧
    (∀ events : List (List UInt8),
      GeminiClass.runCapture events = GeminiFactory.runCapture events) :=
  ⟨fun _ => rfl, fun _ _ => rfl, fun _ _ => rfl, fun _ _ _ => rfl, fun _ _ => rfl,
    fun _ _ _ => rfl, fun o fuel st => attemptReconnection_class_eq_factory o fuel st,
    fun _ _ _ _ _ => rfl, fun _ => rfl, fun _ => rfl,
    fun _ _ _ => rfl, fun _ _ => rfl, fun _ => rfl, fun _ => rfl, fun _ => rfl,
    onData_class_eq_factory, runCapture_class_eq_factory⟩

end CheatingDaddy
